import Mathlib

/-!
# Info metrics reporter (internal/metrics/info.go)

A shallow embedding of the package-level state and the five operations of
`internal/metrics/info.go`: `SetBuildInfo`, `SetConfigInfo`,
`RegisterInfoMetrics`, `SetConfigChecksum` and `AddPolicyCountCallback`.

The Go functions mutate package-level variables and call into three external
collaborators (the metric registry, the stats/view recorder and the global
producer manager).  Here the process state is an explicit record that every
operation takes and returns.  Pointers to gauge objects are indices into a
heap of gauge objects, a nil pointer is `none`.
-/

namespace Metrics

/-! ## Association lists used for label tuples and rows -/

/-- Value stored under key `k`, if any (first match). -/
def find {κ α : Type} [DecidableEq κ] (k : κ) : List (κ × α) → Option α
  | [] => none
  | (k', v) :: rest => if k' = k then some v else find k rest

/-- Overwrite the value stored under `k`, or append a new pair when `k` is absent. -/
def upsert {κ α : Type} [DecidableEq κ] (k : κ) (v : α) : List (κ × α) → List (κ × α)
  | [] => [(k, v)]
  | (k', v') :: rest => if k' = k then (k, v) :: rest else (k', v') :: upsert k v rest

/-! ## The metric registry (go.opencensus.io/metric) -/

/-- A callback `func() int64` handed to the derived gauge, identified by the
closure it denotes.  What the closure returns when it is invoked is supplied
by the reader (see `Read`). -/
abbrev Callback := Nat

/-- Modelled from the spec: the `metric.Int64Gauge` object of the metrics
library, which is not under src/.  Spec §3: a gauge entry is identified by a
tuple of label values and holds a single mutable int64 value; the gauge is
created with a list of label keys. -/
structure Int64Gauge where
  labelKeys : List String
  entries : List (List String × Int)
deriving DecidableEq, Repr

/-- Modelled from the spec: the `metric.Int64DerivedGauge` object of the
metrics library, which is not under src/.  Spec §3: instead of a stored value
an entry holds a callback, one callback per label tuple. -/
structure Int64DerivedGauge where
  labelKeys : List String
  entries : List (List String × Callback)
deriving DecidableEq, Repr

/-- What a registry name is bound to: a pointer to a gauge or to a derived gauge. -/
inductive MetricRef where
  | gauge (p : Nat)
  | derivedGauge (p : Nat)
deriving DecidableEq, Repr

/-- A pointer to one entry of a gauge: the gauge and the label tuple. -/
abbrev EntryRef := Nat × List String

/-! ## The stats/view recorder (go.opencensus.io/stats) -/

/-- A measure created by `stats.Int64(name, description, unit)`. -/
structure Measure where
  name : String
  description : String
  unit : String
deriving DecidableEq, Repr

/-- A view definition `view.View`; every view of this file aggregates with
`view.LastValue()`. -/
structure View where
  name : String
  description : String
  measure : Measure
  tagKeys : List String
deriving DecidableEq, Repr

/-- Modelled from the spec: the rows the view subsystem (not under src/) keeps
for one registered view.  Spec §3: a view is a measure, tag keys and the
"keep last value" aggregation; a row is identified by the values of the view's
tag keys, a key without a tag has no value. -/
structure ViewData where
  view : View
  rows : List (List (Option String) × Int)
deriving DecidableEq, Repr

/-! ## Process state -/

/-- The package-level variables of `info.go` together with the state of the
collaborators they point into. -/
structure State where
  /-- Heap of `metric.Int64Gauge` objects. -/
  gauges : List Int64Gauge
  /-- Heap of `metric.Int64DerivedGauge` objects. -/
  derivedGauges : List Int64DerivedGauge
  /-- Contents of `metricRegistry`: metric name to metric object. -/
  metricRegistry : List (String × MetricRef)
  /-- Identity of the `metricRegistry` object as a metric producer. -/
  registryId : Nat
  /-- Package variable `buildInfo *metric.Int64Gauge`. -/
  buildInfo : Option Nat
  /-- Package variable `policyCount *metric.Int64DerivedGauge`. -/
  policyCount : Option Nat
  /-- Package variable `configChecksum *metric.Int64Gauge`. -/
  configChecksum : Option Nat
  /-- Views registered with the view subsystem, with their rows. -/
  views : List ViewData
  /-- Producers held by `metricproducer.GlobalManager()`. -/
  producers : List Nat
  /-- Messages written with `log.Error()`. -/
  logs : List String
  /-- Record of the add-gauge operations invoked on the registry: the metric
  name and whether the registry accepted it. -/
  addGaugeCalls : List (String × Bool)
deriving DecidableEq, Repr

/-- How a call ends: it returns to the caller, or the goroutine panics on a
nil pointer dereference. -/
inductive Outcome where
  | returned (st : State)
  | panicked (st : State)
deriving DecidableEq, Repr

/-- The state a call leaves behind, however it ended. -/
def Outcome.state : Outcome → State
  | .returned st => st
  | .panicked st => st

/-- The gauge object behind pointer `p`. -/
def State.gauge (st : State) (p : Nat) : Int64Gauge :=
  st.gauges.getD p ⟨[], []⟩

/-- The derived gauge object behind pointer `p`. -/
def State.derivedGauge (st : State) (p : Nat) : Int64DerivedGauge :=
  st.derivedGauges.getD p ⟨[], []⟩

/-- Store through gauge pointer `p`. -/
def State.setGauge (st : State) (p : Nat) (g : Int64Gauge) : State :=
  { st with gauges := st.gauges.set p g }

/-- Store through derived gauge pointer `p`. -/
def State.setDerivedGauge (st : State) (p : Nat) (g : Int64DerivedGauge) : State :=
  { st with derivedGauges := st.derivedGauges.set p g }

/-- The call `log.Error().Err(err).Msg(msg)`. -/
def logError (msg : String) (st : State) : State :=
  { st with logs := st.logs ++ [msg] }

/-- Modelled from the spec: `Registry.AddInt64Gauge` of the metrics library,
which is not under src/.  Spec §6: "create gauge by name with description and
label keys"; spec §7 (a): creation fails on a duplicate name with an
incompatible signature, here a name already bound to a derived gauge.  On
success a fresh gauge object is allocated and bound to the name. -/
def AddInt64Gauge (name : String) (labelKeys : List String) (st : State) :
    Except String Nat × State :=
  match find name st.metricRegistry with
  | some (.derivedGauge _) =>
    (.error "metric exists with an incompatible signature",
      { st with addGaugeCalls := st.addGaugeCalls ++ [(name, false)] })
  | _ =>
    let p := st.gauges.length
    (.ok p,
      { st with
        gauges := st.gauges ++ [⟨labelKeys, []⟩]
        metricRegistry := upsert name (.gauge p) st.metricRegistry
        addGaugeCalls := st.addGaugeCalls ++ [(name, true)] })

/-- Modelled from the spec: `Registry.AddInt64DerivedGauge` of the metrics
library, which is not under src/.  As `AddInt64Gauge`, for a derived gauge:
creation fails when the name is already bound to a plain gauge. -/
def AddInt64DerivedGauge (name : String) (labelKeys : List String) (st : State) :
    Except String Nat × State :=
  match find name st.metricRegistry with
  | some (.gauge _) =>
    (.error "metric exists with an incompatible signature",
      { st with addGaugeCalls := st.addGaugeCalls ++ [(name, false)] })
  | _ =>
    let p := st.derivedGauges.length
    (.ok p,
      { st with
        derivedGauges := st.derivedGauges ++ [⟨labelKeys, []⟩]
        metricRegistry := upsert name (.derivedGauge p) st.metricRegistry
        addGaugeCalls := st.addGaugeCalls ++ [(name, true)] })

/-- Modelled from the spec: `Int64Gauge.GetEntry` of the metrics library,
which is not under src/.  Spec §6: "get-or-create entry by label-value tuple";
spec §7 (b): the lookup fails on a label-value cardinality mismatch, and then
the returned entry pointer is nil.  A created entry starts at 0. -/
def GetEntry (p : Nat) (labelVals : List String) (st : State) :
    Except String EntryRef × State :=
  let g := st.gauge p
  if labelVals.length ≠ g.labelKeys.length then
    (.error "label keys and values do not match", st)
  else
    match find labelVals g.entries with
    | some _ => (.ok (p, labelVals), st)
    | none => (.ok (p, labelVals), st.setGauge p { g with entries := g.entries ++ [(labelVals, 0)] })

/-- Modelled from the spec: `Int64GaugeEntry.Set` of the metrics library,
which is not under src/.  Spec §6: "then Set(value)": the entry's value is
overwritten.  The receiver is a pointer; a nil receiver is dereferenced. -/
def EntrySet (m : Option EntryRef) (val : Int) (st : State) : Outcome :=
  match m with
  | none => .panicked st
  | some (p, labelVals) =>
    let g := st.gauge p
    .returned (st.setGauge p { g with entries := upsert labelVals val g.entries })

/-- Modelled from the spec: `Int64DerivedGauge.UpsertEntry` of the metrics
library, which is not under src/.  Spec §3: re-registering the same label
tuple replaces the prior callback; spec §7 (b): fails on a label-value
cardinality mismatch. -/
def UpsertEntry (p : Nat) (f : Callback) (labelVals : List String) (st : State) :
    Except String Unit × State :=
  let g := st.derivedGauge p
  if labelVals.length ≠ g.labelKeys.length then
    (.error "label keys and values do not match", st)
  else
    (.ok (), st.setDerivedGauge p { g with entries := upsert labelVals f g.entries })

/-- One exported point: metric name, label values, value. -/
abbrev Point := String × List String × Int

/-- Modelled from the spec: what the export read does for one registered
metric.  Spec §3: a gauge entry reports its stored value, a derived gauge
entry invokes its callback "at export time to compute the current value".
`call f` is what invoking callback `f` returns during this read.  The result
is the exported points and the callbacks invoked, each with the metric name
and label tuple it was invoked for. -/
def readMetric (call : Callback → Int) (st : State) (nm : String × MetricRef) :
    List Point × List (String × List String × Callback) :=
  match nm.2 with
  | .gauge p => ((st.gauge p).entries.map (fun e => (nm.1, e.1, e.2)), [])
  | .derivedGauge p =>
    ((st.derivedGauge p).entries.map (fun e => (nm.1, e.1, call e.2)),
     (st.derivedGauge p).entries.map (fun e => (nm.1, e.1, e.2)))

/-- Modelled from the spec: the export read `Registry.Read` of the metrics
library, which is not under src/: every registered metric is read in turn. -/
def Read (call : Callback → Int) (st : State) :
    List Point × List (String × List String × Callback) :=
  (st.metricRegistry.flatMap (fun nm => (readMetric call st nm).1),
   st.metricRegistry.flatMap (fun nm => (readMetric call st nm).2))

/-- The value stored in the entry for `labelVals` of the gauge registered
under `name`. -/
def gaugeEntry (name : String) (labelVals : List String) (st : State) : Option Int :=
  match find name st.metricRegistry with
  | some (.gauge p) => find labelVals (st.gauge p).entries
  | _ => none

/-- All entries of the gauge registered under `name`. -/
def gaugeEntries (name : String) (st : State) : List (List String × Int) :=
  match find name st.metricRegistry with
  | some (.gauge p) => (st.gauge p).entries
  | _ => []

/-- All entries of the derived gauge registered under `name`. -/
def derivedEntries (name : String) (st : State) : List (List String × Callback) :=
  match find name st.metricRegistry with
  | some (.derivedGauge p) => (st.derivedGauge p).entries
  | _ => []

/-! ## Package-level definitions of info.go -/

/-- Modelled from the spec: the tag key `keyService`, declared in a file of
the package that is not under src/.  Spec §4.1: measurements are "tagged with
service". -/
def keyService : String := "service"

/-- The measure `configLastReload` (info.go line 21). -/
def configLastReload : Measure :=
  ⟨"config_last_reload_success_timestamp", "Timestamp of last successful config reload", "seconds"⟩

/-- The measure `configLastReloadSuccess` (info.go line 22). -/
def configLastReloadSuccess : Measure :=
  ⟨"config_last_reload_success", "Returns 1 if last reload was successful", "1"⟩

/-- The view `ConfigLastReloadView` (info.go lines 32-38). -/
def ConfigLastReloadView : View :=
  { name := configLastReload.name
    description := configLastReload.description
    measure := configLastReload
    tagKeys := [keyService] }

/-- The view `ConfigLastReloadSuccessView` (info.go lines 41-47). -/
def ConfigLastReloadSuccessView : View :=
  { name := configLastReloadSuccess.name
    description := configLastReloadSuccess.description
    measure := configLastReloadSuccess
    tagKeys := [keyService] }

/-- What the package reads from its surroundings when `SetBuildInfo` runs:
`version.FullVersion()`, `version.GitCommit` and `runtime.Version()`.  The
`version` package is not under src/, so its values are parameters. -/
structure BuildEnv where
  fullVersion : String
  gitCommit : String
  runtimeVersion : String
deriving DecidableEq, Repr

/-- Behaviour of the collaborators that the spec leaves open.
`tagValueOK v` tells whether `tag.Insert(key, v)` is accepted by the tag
library (spec §7 (c) names the "tag insertion error" without saying which
values cause it).  `dedupProducers` tells whether the producer manager
"deduplicates by identity" (spec §4.1 leaves it to the collaborator). -/
structure Collaborators where
  tagValueOK : String → Bool
  dedupProducers : Bool

/-- Modelled from the spec: how the view subsystem (not under src/) stores one
measurement.  Spec §3: every registered view on the measure keeps the last
value per row; the row is given by the values of the view's tag keys among the
tags of the measurement. -/
def recordMeasurement (tags : List (String × String)) (m : Measure) (v : Int)
    (views : List ViewData) : List ViewData :=
  views.map fun vd =>
    if vd.view.measure = m then
      { vd with rows := upsert (vd.view.tagKeys.map (fun k => find k tags)) v vd.rows }
    else vd

/-- The view data registered under `name`, if any. -/
def lookupView (name : String) (views : List ViewData) : Option ViewData :=
  views.find? (fun vd => vd.view.name = name)

/-- Modelled from the spec: `stats.RecordWithTags(context.Background(),
mutators, measurement)` of the stats library, which is not under src/.  Each
mutator is a `tag.Insert(key, value)`; spec §7 (c): the recording fails on a
tag insertion error and then nothing is recorded. -/
def RecordWithTags (lib : Collaborators) (mutators : List (String × String)) (m : Measure)
    (v : Int) (st : State) : Except String Unit × State :=
  if mutators.all (fun kv => lib.tagValueOK kv.2) then
    (.ok (), { st with views := recordMeasurement mutators m v st.views })
  else
    (.error "invalid tag value", st)

/-- Modelled from the spec: `stats.Record(context.Background(), measurement)`
of the stats library, which is not under src/: the measurement is recorded
with the tags of the context, and the background context has none. -/
def Record (m : Measure) (v : Int) (st : State) : State :=
  { st with views := recordMeasurement [] m v st.views }

/-- Rows of the registered view called `name` (`view.RetrieveData`). -/
def RetrieveData (name : String) (st : State) : Option (List (List (Option String) × Int)) :=
  (lookupView name st.views).map (fun vd => vd.rows)

/-- The value of the row of view `name` whose service tag is `service`
(`none` for the row without a service tag). -/
def viewRow (name : String) (service : Option String) (st : State) : Option Int :=
  match RetrieveData name st with
  | some rows => find [service] rows
  | none => none

/-- View `v` is registered: the view subsystem holds it under its name. -/
def Registered (v : View) (st : State) : Prop :=
  (lookupView v.name st.views).map (fun vd => vd.view) = some v

/-- Modelled from the spec: `Manager.AddProducer` of the producer manager,
which is not under src/.  Spec §6: "add producer". -/
def AddProducer (lib : Collaborators) (p : Nat) (st : State) : State :=
  if lib.dedupProducers && decide (p ∈ st.producers) then st
  else { st with producers := st.producers ++ [p] }

/-- Modelled from the spec: `Manager.DeleteProducer` of the producer manager,
which is not under src/.  Spec §6: "delete producer": the producer is no
longer in the list. -/
def DeleteProducer (p : Nat) (st : State) : State :=
  { st with producers := st.producers.filter (fun q => q ≠ p) }

/-! ## The operations of info.go -/

/-- Label keys of the build info gauge (info.go line 56). -/
def buildInfoKeys : List String := ["service", "version", "revision", "goversion"]

/-- The function `SetBuildInfo` (info.go lines 52-75). -/
def SetBuildInfo (env : BuildEnv) (service : String) (st : State) : Outcome :=
  -- if buildInfo == nil
  let reg : Except State (Nat × State) :=
    match st.buildInfo with
    | some p => .ok (p, st)
    | none =>
      match AddInt64Gauge "build_info" buildInfoKeys st with
      | (.error _, st1) =>
        -- the error is logged and the function returns
        .error (logError "internal/metrics: failed to register build info metric" st1)
      | (.ok buildInfoL, st1) => .ok (buildInfoL, { st1 with buildInfo := some buildInfoL })
  match reg with
  | .error st1 => .returned st1
  | .ok (p, st1) =>
    match GetEntry p [service, env.fullVersion, env.gitCommit, env.runtimeVersion] st1 with
    | (.error _, st2) =>
      -- the error is logged and execution continues with m == nil
      EntrySet none 1 (logError "internal/metrics: failed to add build info metric" st2)
    | (.ok m, st2) => EntrySet (some m) 1 st2

/-- The function `SetConfigInfo` (info.go lines 79-101).  `now` is `time.Now().Unix()`. -/
def SetConfigInfo (lib : Collaborators) (now : Int) (service : String) (success : Bool)
    (_checksum : String) (st : State) : Outcome :=
  if success then
    let serviceTag := (keyService, service)
    let st1 :=
      match RecordWithTags lib [serviceTag] configLastReload now st with
      | (.error _, s) =>
        logError "internal/metrics: failed to record config checksum timestamp" s
      | (.ok _, s) => s
    let st2 :=
      match RecordWithTags lib [serviceTag] configLastReloadSuccess 1 st1 with
      | (.error _, s) => logError "internal/metrics: failed to record config reload" s
      | (.ok _, s) => s
    .returned st2
  else
    .returned (Record configLastReloadSuccess 0 st)

/-- The function `RegisterInfoMetrics` (info.go lines 104-106). -/
def RegisterInfoMetrics (lib : Collaborators) (st : State) : Outcome :=
  .returned (AddProducer lib st.registryId st)

/-- The function `SetConfigChecksum` (info.go lines 110-128). -/
def SetConfigChecksum (service : String) (checksum : Int) (st : State) : Outcome :=
  -- if configChecksum == nil
  let reg : Except State (Nat × State) :=
    match st.configChecksum with
    | some p => .ok (p, st)
    | none =>
      match AddInt64Gauge "config_checksum_int64" ["service"] st with
      | (.error _, st1) =>
        -- the error is logged and the function returns
        .error (logError "internal/metrics: failed to register config checksum metric" st1)
      | (.ok configChecksumL, st1) => .ok (configChecksumL, { st1 with configChecksum := some configChecksumL })
  match reg with
  | .error st1 => .returned st1
  | .ok (p, st1) =>
    match GetEntry p [service] st1 with
    | (.error _, st2) =>
      -- the error is logged and execution continues with m == nil
      EntrySet none checksum
        (logError "internal/metrics: failed to add config checksum metric" st2)
    | (.ok m, st2) => EntrySet (some m) checksum st2

/-- The function `AddPolicyCountCallback` (info.go lines 133-150). -/
def AddPolicyCountCallback (service : String) (f : Callback) (st : State) : Outcome :=
  -- if policyCount == nil
  let reg : Except State (Nat × State) :=
    match st.policyCount with
    | some p => .ok (p, st)
    | none =>
      match AddInt64DerivedGauge "policy_count_total" ["service"] st with
      | (.error _, st1) =>
        -- the error is logged and the function returns
        .error (logError "internal/metrics: failed to register policy count metric" st1)
      | (.ok policyCountL, st1) => .ok (policyCountL, { st1 with policyCount := some policyCountL })
  match reg with
  | .error st1 => .returned st1
  | .ok (p, st1) =>
    match UpsertEntry p f [service] st1 with
    | (.error _, st2) =>
      .returned (logError "internal/metrics: failed to add policy count metric" st2)
    | (.ok _, st2) => .returned st2

/-- A call of one of the five operations, with its arguments and what it
reads from its surroundings. -/
inductive Op where
  | setBuildInfo (env : BuildEnv) (service : String)
  | setConfigInfo (now : Int) (service : String) (success : Bool) (checksum : String)
  | registerInfoMetrics
  | setConfigChecksum (service : String) (checksum : Int)
  | addPolicyCountCallback (service : String) (f : Callback)
deriving DecidableEq, Repr

/-- Perform one call. -/
def Op.apply (lib : Collaborators) : Op → State → Outcome
  | .setBuildInfo env service, st => SetBuildInfo env service st
  | .setConfigInfo now service success checksum, st =>
    SetConfigInfo lib now service success checksum st
  | .registerInfoMetrics, st => RegisterInfoMetrics lib st
  | .setConfigChecksum service checksum, st => SetConfigChecksum service checksum st
  | .addPolicyCountCallback service f, st => AddPolicyCountCallback service f st

/-- Perform a sequence of calls, one after the other; a panic ends the run. -/
def run (lib : Collaborators) : List Op → State → Outcome
  | [], st => .returned st
  | op :: rest, st =>
    match op.apply lib st with
    | .returned st1 => run lib rest st1
    | .panicked st1 => .panicked st1

/-- The process state at start: `metricRegistry = metric.NewRegistry()`, the
three gauge variables nil, nothing logged; the registered views and the
producers already held by the global manager are whatever the host set up. -/
def State.initial (registryId : Nat) (views : List ViewData) (producers : List Nat) : State :=
  { gauges := []
    derivedGauges := []
    metricRegistry := []
    registryId := registryId
    buildInfo := none
    policyCount := none
    configChecksum := none
    views := views
    producers := producers
    logs := []
    addGaugeCalls := [] }

/-! ## Well-formed states -/

/-- The gauge variable `var` and the registry agree about the gauge called
`name`: either the variable is nil and the name is not registered, or the
variable points to a live gauge that was created with label keys `keys` and
that the registry holds under `name`. -/
def GaugeVarOK (st : State) (var : Option Nat) (name : String) (keys : List String) : Prop :=
  match var with
  | none => find name st.metricRegistry = none
  | some p =>
    p < st.gauges.length ∧ (st.gauge p).labelKeys = keys ∧
      find name st.metricRegistry = some (.gauge p)

/-- As `GaugeVarOK`, for a derived gauge variable. -/
def DerivedVarOK (st : State) (var : Option Nat) (name : String) (keys : List String) : Prop :=
  match var with
  | none => find name st.metricRegistry = none
  | some p =>
    p < st.derivedGauges.length ∧ (st.derivedGauge p).labelKeys = keys ∧
      find name st.metricRegistry = some (.derivedGauge p)

/-- States the package can be in when only its own operations touch its
variables: each gauge variable is nil and unregistered, or was registered by
its setter; a gauge object holds at most one entry per label tuple. -/
structure WF (st : State) : Prop where
  buildInfo : GaugeVarOK st st.buildInfo "build_info" buildInfoKeys
  configChecksum : GaugeVarOK st st.configChecksum "config_checksum_int64" ["service"]
  policyCount : DerivedVarOK st st.policyCount "policy_count_total" ["service"]
  gaugeKeys : ∀ g ∈ st.gauges, (g.entries.map Prod.fst).Nodup
  derivedKeys : ∀ g ∈ st.derivedGauges, (g.entries.map Prod.fst).Nodup
  registryNames : (st.metricRegistry.map Prod.fst).Nodup

/-- The state after the entry `labelVals` of gauge `p` is set to `v`. -/
def writeEntry (p : Nat) (labelVals : List String) (v : Int) (st : State) : State :=
  st.setGauge p { st.gauge p with entries := upsert labelVals v (st.gauge p).entries }

/-- The state after the entry `labelVals` of derived gauge `p` is given callback `f`. -/
def writeCallback (p : Nat) (labelVals : List String) (f : Callback) (st : State) : State :=
  st.setDerivedGauge p
    { st.derivedGauge p with entries := upsert labelVals f (st.derivedGauge p).entries }

/-- The state once the nil guard of `SetBuildInfo` has been passed with a
successful registration: unchanged when the gauge exists, else with a fresh
gauge bound to "build_info" and stored in `buildInfo`. -/
def ensureBuildInfo (st : State) : State :=
  match st.buildInfo with
  | some _ => st
  | none =>
    { st with
      gauges := st.gauges ++ [⟨buildInfoKeys, []⟩]
      metricRegistry := upsert "build_info" (.gauge st.gauges.length) st.metricRegistry
      addGaugeCalls := st.addGaugeCalls ++ [("build_info", true)]
      buildInfo := some st.gauges.length }

/-- As `ensureBuildInfo`, for the nil guard of `SetConfigChecksum`. -/
def ensureConfigChecksum (st : State) : State :=
  match st.configChecksum with
  | some _ => st
  | none =>
    { st with
      gauges := st.gauges ++ [⟨["service"], []⟩]
      metricRegistry :=
        upsert "config_checksum_int64" (.gauge st.gauges.length) st.metricRegistry
      addGaugeCalls := st.addGaugeCalls ++ [("config_checksum_int64", true)]
      configChecksum := some st.gauges.length }

/-- As `ensureBuildInfo`, for the nil guard of `AddPolicyCountCallback`. -/
def ensurePolicyCount (st : State) : State :=
  match st.policyCount with
  | some _ => st
  | none =>
    { st with
      derivedGauges := st.derivedGauges ++ [⟨["service"], []⟩]
      metricRegistry :=
        upsert "policy_count_total" (.derivedGauge st.derivedGauges.length) st.metricRegistry
      addGaugeCalls := st.addGaugeCalls ++ [("policy_count_total", true)]
      policyCount := some st.derivedGauges.length }

/-- The rule of the tag library go.opencensus.io/tag (not under src/) for a
tag value: at most 255 bytes, every character printable ASCII (32 to 126).
It is one possible `Collaborators.tagValueOK`. -/
def checkValue (v : String) : Bool :=
  decide (v.utf8ByteSize ≤ 255) && v.data.all (fun c => decide (32 ≤ c.toNat ∧ c.toNat ≤ 126))

/-- The collaborators as the opencensus libraries behave: tag values are
checked with `checkValue`, the producer manager keeps each producer once. -/
def opencensus : Collaborators := ⟨checkValue, true⟩

/-- A process that has registered both config views and whose producer
manager already holds one other producer. -/
def started : State :=
  State.initial 7 [⟨ConfigLastReloadView, []⟩, ⟨ConfigLastReloadSuccessView, []⟩] [1]

/-- The label tuple `SetBuildInfo` passes to `GetEntry` (info.go lines 66-69). -/
def buildInfoLabels (env : BuildEnv) (service : String) : List String :=
  [service, env.fullVersion, env.gitCommit, env.runtimeVersion]

/-- The label tuples that have an entry in the gauge registered under `name`. -/
def gaugeLabels (name : String) (st : State) : List (List String) :=
  (gaugeEntries name st).map Prod.fst

/-- How many times `k` occurs in `l`. -/
def occurrences {α : Type} [DecidableEq α] (k : α) (l : List α) : Nat :=
  (l.filter (fun x => decide (x = k))).length

/-- A state whose registry already holds the three metric names of this
package with the other kind of metric, so that creating each gauge fails. -/
def clashing : State :=
  { State.initial 7 [] [1] with
    gauges := [⟨["service"], []⟩]
    derivedGauges := [⟨["service"], []⟩]
    metricRegistry :=
      [("build_info", .derivedGauge 0), ("config_checksum_int64", .derivedGauge 0),
        ("policy_count_total", .gauge 0)] }

/-- A state in which `buildInfo` points to a gauge created with one label key
and `configChecksum` to a gauge created with four. -/
def swapped : State :=
  { State.initial 7 [] [1] with
    gauges := [⟨["service"], []⟩, ⟨buildInfoKeys, []⟩]
    metricRegistry := [("config_checksum_int64", .gauge 0), ("build_info", .gauge 1)]
    buildInfo := some 0
    configChecksum := some 1 }

/-- The three gauge variables and the record of add-gauge calls are the same
in `st1` as in `st`. -/
def SameVars (st st1 : State) : Prop :=
  st1.buildInfo = st.buildInfo ∧ st1.configChecksum = st.configChecksum ∧
    st1.policyCount = st.policyCount ∧ st1.addGaugeCalls = st.addGaugeCalls

/-- What a stretch of calls did to one gauge: its variable went from `x` to
`x1` while the add-gauge calls `new` were made on the registry.  A variable
that was set keeps its pointer; no add-gauge call is made for a gauge whose
variable was set; at most one add-gauge call for the gauge succeeds; after a
successful one the variable is set. -/
structure Once (name : String) (x x1 : Option Nat) (new : List (String × Bool)) : Prop where
  kept : ∀ p, x = some p → x1 = some p
  reused : x ≠ none → ∀ b, (name, b) ∉ new
  atMostOnce : occurrences (name, true) new ≤ 1
  stored : (name, true) ∈ new → x1 ≠ none

/-- From `st` to `st1` messages were only appended to the log, and each of
them is one of the two messages of `SetConfigInfo`. -/
def Quiet (st st1 : State) : Prop :=
  ∃ extra, st1.logs = st.logs ++ extra ∧
    ∀ m ∈ extra, m = "internal/metrics: failed to record config checksum timestamp" ∨
      m = "internal/metrics: failed to record config reload"

/-- The add-gauge calls made for the metric called `name`. -/
def callsFor (name : String) (calls : List (String × Bool)) : List (String × Bool) :=
  calls.filter (fun c => decide (c.1 = name))

/-- From `st` to `st1` add-gauge calls were only appended, and each of the
three gauges was treated as `Once` says. -/
def Steps (st st1 : State) : Prop :=
  ∃ new, st1.addGaugeCalls = st.addGaugeCalls ++ new ∧
    Once "build_info" st.buildInfo st1.buildInfo new ∧
    Once "config_checksum_int64" st.configChecksum st1.configChecksum new ∧
    Once "policy_count_total" st.policyCount st1.policyCount new

/-- The checksum of the last call for `service` in a list of
`SetConfigChecksum` calls, if there is one. -/
def lastChecksum (service : String) : List (String × Int) → Option Int
  | [] => none
  | (s, c) :: rest =>
    match lastChecksum service rest with
    | some c' => some c'
    | none => if s = service then some c else none

/-! ## Facts about association lists -/

theorem find_upsert_self {κ α : Type} [DecidableEq κ] (k : κ) (v : α) (l : List (κ × α)) :
    find k (upsert k v l) = some v := by
  induction l with
  | nil => simp [upsert, find]
  | cons hd tl ih =>
    obtain ⟨k', v'⟩ := hd
    by_cases h : k' = k <;> simp [upsert, find, h, ih]

theorem find_upsert_ne {κ α : Type} [DecidableEq κ] {k k' : κ} (h : k' ≠ k) (v : α)
    (l : List (κ × α)) : find k' (upsert k v l) = find k' l := by
  induction l with
  | nil => simp [upsert, find, Ne.symm h]
  | cons hd tl ih =>
    obtain ⟨k'', v''⟩ := hd
    by_cases h1 : k'' = k
    · subst h1
      simp [upsert, find, Ne.symm h]
    · by_cases h2 : k'' = k'
      · subst h2
        simp [upsert, find, h1]
      · simp [upsert, find, h1, h2, ih]

theorem find_eq_none_iff {κ α : Type} [DecidableEq κ] (k : κ) (l : List (κ × α)) :
    find k l = none ↔ k ∉ l.map Prod.fst := by
  induction l with
  | nil => simp [find]
  | cons hd tl ih =>
    obtain ⟨k', v'⟩ := hd
    by_cases h : k' = k
    · simp [find, h]
    · simp [find, h, ih, Ne.symm h]

theorem upsert_append_absent {κ α : Type} [DecidableEq κ] {k : κ} (v w : α)
    {l : List (κ × α)} (h : find k l = none) :
    upsert k v (l ++ [(k, w)]) = upsert k v l := by
  induction l with
  | nil => simp [upsert]
  | cons hd tl ih =>
    obtain ⟨k', v'⟩ := hd
    by_cases h1 : k' = k
    · simp [find, h1] at h
    · simp [find, h1] at h
      simp [upsert, h1, ih h]

theorem upsert_of_find_some {κ α : Type} [DecidableEq κ] {k : κ} {v : α} {l : List (κ × α)}
    (h : find k l = some v) : upsert k v l = l := by
  induction l with
  | nil => simp [find] at h
  | cons hd tl ih =>
    obtain ⟨k', v'⟩ := hd
    by_cases h1 : k' = k
    · simp [find, h1] at h
      simp [upsert, h1, h]
    · simp [find, h1] at h
      simp [upsert, h1, ih h]

theorem keys_upsert {κ α : Type} [DecidableEq κ] (k : κ) (v : α) (l : List (κ × α)) :
    (upsert k v l).map Prod.fst =
      if k ∈ l.map Prod.fst then l.map Prod.fst else l.map Prod.fst ++ [k] := by
  induction l with
  | nil => simp [upsert]
  | cons hd tl ih =>
    obtain ⟨k', v'⟩ := hd
    by_cases h1 : k' = k
    · simp [upsert, h1]
    · by_cases h2 : k ∈ tl.map Prod.fst
      · rw [if_pos (by simp [h2])]
        simp [upsert, h1, ih, h2]
      · rw [if_neg (by simp [Ne.symm h1]; simpa using h2)]
        simp [upsert, h1, ih, h2]

theorem nodup_keys_upsert {κ α : Type} [DecidableEq κ] (k : κ) (v : α) {l : List (κ × α)}
    (h : (l.map Prod.fst).Nodup) : ((upsert k v l).map Prod.fst).Nodup := by
  rw [keys_upsert]
  split
  · exact h
  · rename_i hk
    rw [List.nodup_append]
    refine ⟨h, List.nodup_singleton k, ?_⟩
    intro a ha hb
    simp at hb
    subst hb
    exact hk ha

/-! ## Facts about the heap of gauge objects -/

theorem gauge_setGauge_self {st : State} {p : Nat} (g : Int64Gauge)
    (h : p < st.gauges.length) : (st.setGauge p g).gauge p = g := by
  simp [State.gauge, State.setGauge, List.getD_eq_getElem?_getD, h]

theorem gauge_setGauge_ne {st : State} {p q : Nat} (g : Int64Gauge) (h : q ≠ p) :
    (st.setGauge p g).gauge q = st.gauge q := by
  simp [State.gauge, State.setGauge, List.getD_eq_getElem?_getD, List.getElem?_set_ne (Ne.symm h)]

theorem derivedGauge_set_self {st : State} {p : Nat} (g : Int64DerivedGauge)
    (h : p < st.derivedGauges.length) : (st.setDerivedGauge p g).derivedGauge p = g := by
  simp [State.derivedGauge, State.setDerivedGauge, List.getD_eq_getElem?_getD, h]

theorem derivedGauge_set_ne {st : State} {p q : Nat} (g : Int64DerivedGauge) (h : q ≠ p) :
    (st.setDerivedGauge p g).derivedGauge q = st.derivedGauge q := by
  simp [State.derivedGauge, State.setDerivedGauge, List.getD_eq_getElem?_getD,
    List.getElem?_set_ne (Ne.symm h)]

theorem gauge_writeEntry_self {st : State} {p : Nat} (vals : List String) (v : Int)
    (h : p < st.gauges.length) :
    (writeEntry p vals v st).gauge p =
      { st.gauge p with entries := upsert vals v (st.gauge p).entries } :=
  gauge_setGauge_self _ h

theorem gauge_writeEntry_ne {st : State} {p q : Nat} (vals : List String) (v : Int)
    (h : q ≠ p) : (writeEntry p vals v st).gauge q = st.gauge q :=
  gauge_setGauge_ne _ h

/-- With as many label values as label keys the lookup succeeds. -/
theorem GetEntry_ok {st : State} {p : Nat} {vals : List String}
    (hlen : vals.length = (st.gauge p).labelKeys.length) :
    (GetEntry p vals st).1 = .ok (p, vals) := by
  unfold GetEntry
  simp only [hlen, ne_eq, not_true_eq_false, if_false]
  split <;> rfl

/-- Looking an entry up and setting it amounts to one write into the gauge. -/
theorem EntrySet_GetEntry {st : State} {p : Nat} (vals : List String) (v : Int)
    (hp : p < st.gauges.length)
    (hlen : vals.length = (st.gauge p).labelKeys.length) :
    EntrySet (some (p, vals)) v (GetEntry p vals st).2 = .returned (writeEntry p vals v st) := by
  unfold GetEntry
  simp only [hlen, ne_eq, not_true_eq_false, if_false]
  split
  · rfl
  · rename_i hnone
    simp only [EntrySet, writeEntry]
    rw [gauge_setGauge_self _ hp]
    simp [State.setGauge, upsert_append_absent _ _ hnone]

/-! ## What each setter does in a well-formed state -/

/-- The state after `AddInt64Gauge name keys` succeeded and the returned
pointer was stored by `store`. -/
theorem AddInt64Gauge_ok {st : State} {name : String} (keys : List String)
    (h : ∀ q, find name st.metricRegistry ≠ some (.derivedGauge q)) :
    AddInt64Gauge name keys st =
      (.ok st.gauges.length,
        { st with
          gauges := st.gauges ++ [⟨keys, []⟩]
          metricRegistry := upsert name (.gauge st.gauges.length) st.metricRegistry
          addGaugeCalls := st.addGaugeCalls ++ [(name, true)] }) := by
  unfold AddInt64Gauge
  split
  · rename_i q hq
    exact absurd hq (h q)
  · rfl

theorem AddInt64DerivedGauge_ok {st : State} {name : String} (keys : List String)
    (h : ∀ q, find name st.metricRegistry ≠ some (.gauge q)) :
    AddInt64DerivedGauge name keys st =
      (.ok st.derivedGauges.length,
        { st with
          derivedGauges := st.derivedGauges ++ [⟨keys, []⟩]
          metricRegistry := upsert name (.derivedGauge st.derivedGauges.length) st.metricRegistry
          addGaugeCalls := st.addGaugeCalls ++ [(name, true)] }) := by
  unfold AddInt64DerivedGauge
  split
  · rename_i q hq
    exact absurd hq (h q)
  · rfl

theorem SetConfigChecksum_registered {st : State} {p : Nat} (service : String) (checksum : Int)
    (hvar : st.configChecksum = some p) (hp : p < st.gauges.length)
    (hkeys : (st.gauge p).labelKeys.length = 1) :
    SetConfigChecksum service checksum st = .returned (writeEntry p [service] checksum st) := by
  have hlen : [service].length = (st.gauge p).labelKeys.length := by simp [hkeys]
  have h1 := GetEntry_ok hlen
  have h2 := EntrySet_GetEntry [service] checksum hp hlen
  unfold SetConfigChecksum
  simp only [hvar]
  generalize GetEntry p [service] st = r at h1 h2
  obtain ⟨e, st2⟩ := r
  simp only at h1 h2
  subst h1
  exact h2

theorem SetBuildInfo_registered {st : State} {p : Nat} (env : BuildEnv) (service : String)
    (hvar : st.buildInfo = some p) (hp : p < st.gauges.length)
    (hkeys : (st.gauge p).labelKeys.length = 4) :
    SetBuildInfo env service st =
      .returned
        (writeEntry p [service, env.fullVersion, env.gitCommit, env.runtimeVersion] 1 st) := by
  have hlen : [service, env.fullVersion, env.gitCommit, env.runtimeVersion].length =
      (st.gauge p).labelKeys.length := by simp [hkeys]
  have h1 := GetEntry_ok hlen
  have h2 := EntrySet_GetEntry _ 1 hp hlen
  unfold SetBuildInfo
  simp only [hvar]
  generalize GetEntry p [service, env.fullVersion, env.gitCommit, env.runtimeVersion] st = r
    at h1 h2
  obtain ⟨e, st2⟩ := r
  simp only at h1 h2
  subst h1
  exact h2

theorem AddPolicyCountCallback_registered {st : State} {p : Nat} (service : String)
    (f : Callback) (hvar : st.policyCount = some p)
    (hkeys : (st.derivedGauge p).labelKeys.length = 1) :
    AddPolicyCountCallback service f st = .returned (writeCallback p [service] f st) := by
  unfold AddPolicyCountCallback
  simp [hvar, UpsertEntry, hkeys, writeCallback]

theorem SetConfigChecksum_ensure {st : State} (service : String) (checksum : Int)
    (h : st.configChecksum = none →
      ∀ q, find "config_checksum_int64" st.metricRegistry ≠ some (.derivedGauge q)) :
    SetConfigChecksum service checksum st =
      SetConfigChecksum service checksum (ensureConfigChecksum st) := by
  cases hvar : st.configChecksum with
  | some p => simp [ensureConfigChecksum, hvar]
  | none =>
    conv_lhs => unfold SetConfigChecksum
    conv_rhs => unfold SetConfigChecksum
    simp only [ensureConfigChecksum, hvar, AddInt64Gauge_ok _ (h hvar)]

theorem SetBuildInfo_ensure {st : State} (env : BuildEnv) (service : String)
    (h : st.buildInfo = none →
      ∀ q, find "build_info" st.metricRegistry ≠ some (.derivedGauge q)) :
    SetBuildInfo env service st = SetBuildInfo env service (ensureBuildInfo st) := by
  cases hvar : st.buildInfo with
  | some p => simp [ensureBuildInfo, hvar]
  | none =>
    conv_lhs => unfold SetBuildInfo
    conv_rhs => unfold SetBuildInfo
    simp only [ensureBuildInfo, hvar, AddInt64Gauge_ok _ (h hvar)]

theorem AddPolicyCountCallback_ensure {st : State} (service : String) (f : Callback)
    (h : st.policyCount = none →
      ∀ q, find "policy_count_total" st.metricRegistry ≠ some (.gauge q)) :
    AddPolicyCountCallback service f st =
      AddPolicyCountCallback service f (ensurePolicyCount st) := by
  cases hvar : st.policyCount with
  | some p => simp [ensurePolicyCount, hvar]
  | none =>
    conv_lhs => unfold AddPolicyCountCallback
    conv_rhs => unfold AddPolicyCountCallback
    simp only [ensurePolicyCount, hvar, AddInt64DerivedGauge_ok _ (h hvar)]

/-! ## Well-formedness is kept by every step -/

theorem WF_ensureConfigChecksum {st : State} (h : WF st) : WF (ensureConfigChecksum st) := by
  cases hvar : st.configChecksum with
  | some p => simpa [ensureConfigChecksum, hvar] using h
  | none =>
    obtain ⟨hb, hc, hpc, hg, hd, hrn⟩ := h
    simp only [ensureConfigChecksum, hvar]
    refine ⟨?_, ?_, ?_, ?_, ?_, nodup_keys_upsert _ _ hrn⟩
    · cases hbv : st.buildInfo with
      | none =>
        simp only [hbv, GaugeVarOK] at hb ⊢
        rw [find_upsert_ne (by decide)]
        exact hb
      | some q =>
        simp only [hbv, GaugeVarOK] at hb ⊢
        obtain ⟨h1, h2, h3⟩ := hb
        refine ⟨by simp; omega, ?_, ?_⟩
        · simp only [State.gauge] at h2 ⊢
          rw [List.getD_append _ _ _ _ h1]
          exact h2
        · rw [find_upsert_ne (by decide)]
          exact h3
    · simp only [GaugeVarOK]
      refine ⟨by simp, ?_, find_upsert_self _ _ _⟩
      simp [State.gauge]
    · cases hpv : st.policyCount with
      | none =>
        simp only [hpv, DerivedVarOK] at hpc ⊢
        rw [find_upsert_ne (by decide)]
        exact hpc
      | some q =>
        simp only [hpv, DerivedVarOK] at hpc ⊢
        obtain ⟨h1, h2, h3⟩ := hpc
        refine ⟨h1, h2, ?_⟩
        rw [find_upsert_ne (by decide)]
        exact h3
    · intro g hgm
      simp only [List.mem_append, List.mem_singleton] at hgm
      rcases hgm with hgm | hgm
      · exact hg g hgm
      · subst hgm
        simp
    · exact hd

theorem WF_ensureBuildInfo {st : State} (h : WF st) : WF (ensureBuildInfo st) := by
  cases hvar : st.buildInfo with
  | some p => simpa [ensureBuildInfo, hvar] using h
  | none =>
    obtain ⟨hb, hc, hpc, hg, hd, hrn⟩ := h
    simp only [ensureBuildInfo, hvar]
    refine ⟨?_, ?_, ?_, ?_, ?_, nodup_keys_upsert _ _ hrn⟩
    · simp only [GaugeVarOK]
      refine ⟨by simp, ?_, find_upsert_self _ _ _⟩
      simp [State.gauge]
    · cases hcv : st.configChecksum with
      | none =>
        simp only [hcv, GaugeVarOK] at hc ⊢
        rw [find_upsert_ne (by decide)]
        exact hc
      | some q =>
        simp only [hcv, GaugeVarOK] at hc ⊢
        obtain ⟨h1, h2, h3⟩ := hc
        refine ⟨by simp; omega, ?_, ?_⟩
        · simp only [State.gauge] at h2 ⊢
          rw [List.getD_append _ _ _ _ h1]
          exact h2
        · rw [find_upsert_ne (by decide)]
          exact h3
    · cases hpv : st.policyCount with
      | none =>
        simp only [hpv, DerivedVarOK] at hpc ⊢
        rw [find_upsert_ne (by decide)]
        exact hpc
      | some q =>
        simp only [hpv, DerivedVarOK] at hpc ⊢
        obtain ⟨h1, h2, h3⟩ := hpc
        refine ⟨h1, h2, ?_⟩
        rw [find_upsert_ne (by decide)]
        exact h3
    · intro g hgm
      simp only [List.mem_append, List.mem_singleton] at hgm
      rcases hgm with hgm | hgm
      · exact hg g hgm
      · subst hgm
        simp
    · exact hd

theorem WF_ensurePolicyCount {st : State} (h : WF st) : WF (ensurePolicyCount st) := by
  cases hvar : st.policyCount with
  | some p => simpa [ensurePolicyCount, hvar] using h
  | none =>
    obtain ⟨hb, hc, hpc, hg, hd, hrn⟩ := h
    simp only [ensurePolicyCount, hvar]
    refine ⟨?_, ?_, ?_, ?_, ?_, nodup_keys_upsert _ _ hrn⟩
    · cases hbv : st.buildInfo with
      | none =>
        simp only [hbv, GaugeVarOK] at hb ⊢
        rw [find_upsert_ne (by decide)]
        exact hb
      | some q =>
        simp only [hbv, GaugeVarOK] at hb ⊢
        obtain ⟨h1, h2, h3⟩ := hb
        refine ⟨h1, h2, ?_⟩
        rw [find_upsert_ne (by decide)]
        exact h3
    · cases hcv : st.configChecksum with
      | none =>
        simp only [hcv, GaugeVarOK] at hc ⊢
        rw [find_upsert_ne (by decide)]
        exact hc
      | some q =>
        simp only [hcv, GaugeVarOK] at hc ⊢
        obtain ⟨h1, h2, h3⟩ := hc
        refine ⟨h1, h2, ?_⟩
        rw [find_upsert_ne (by decide)]
        exact h3
    · simp only [DerivedVarOK]
      refine ⟨by simp, ?_, find_upsert_self _ _ _⟩
      simp [State.derivedGauge]
    · exact hg
    · intro g hgm
      simp only [List.mem_append, List.mem_singleton] at hgm
      rcases hgm with hgm | hgm
      · exact hd g hgm
      · subst hgm
        simp

/-- Well-formedness only looks at the registry side of the state. -/
theorem WF_congr {st st1 : State} (h : WF st) (h1 : st1.gauges = st.gauges)
    (h2 : st1.derivedGauges = st.derivedGauges) (h3 : st1.metricRegistry = st.metricRegistry)
    (h4 : st1.buildInfo = st.buildInfo) (h5 : st1.configChecksum = st.configChecksum)
    (h6 : st1.policyCount = st.policyCount) : WF st1 := by
  obtain ⟨hb, hc, hpc, hg, hd, hrn⟩ := h
  refine ⟨?_, ?_, ?_, ?_, ?_, ?_⟩
  · simpa [GaugeVarOK, State.gauge, h1, h3, h4] using hb
  · simpa [GaugeVarOK, State.gauge, h1, h3, h5] using hc
  · simpa [DerivedVarOK, State.derivedGauge, h2, h3, h6] using hpc
  · rw [h1]
    exact hg
  · rw [h2]
    exact hd
  · rw [h3]
    exact hrn

theorem gauge_mem {st : State} {p : Nat} (h : p < st.gauges.length) :
    st.gauge p ∈ st.gauges := by
  simp only [State.gauge, List.getD_eq_getElem _ _ h]
  exact List.getElem_mem h

theorem derivedGauge_mem {st : State} {p : Nat} (h : p < st.derivedGauges.length) :
    st.derivedGauge p ∈ st.derivedGauges := by
  simp only [State.derivedGauge, List.getD_eq_getElem _ _ h]
  exact List.getElem_mem h

theorem GaugeVarOK_writeEntry {st : State} {p : Nat} (vals : List String) (v : Int)
    (var : Option Nat) (name : String) (keys : List String)
    (h : GaugeVarOK st var name keys) : GaugeVarOK (writeEntry p vals v st) var name keys := by
  cases var with
  | none => exact h
  | some q =>
    obtain ⟨h1, h2, h3⟩ := h
    refine ⟨by simpa [writeEntry, State.setGauge] using h1, ?_, h3⟩
    by_cases hq : q = p
    · subst hq
      rw [gauge_writeEntry_self _ _ h1]
      exact h2
    · rw [gauge_writeEntry_ne _ _ hq]
      exact h2

theorem WF_writeEntry {st : State} {p : Nat} (vals : List String) (v : Int) (h : WF st)
    (hp : p < st.gauges.length) : WF (writeEntry p vals v st) := by
  obtain ⟨hb, hc, hpc, hg, hd, hrn⟩ := h
  refine ⟨GaugeVarOK_writeEntry _ _ _ _ _ hb, GaugeVarOK_writeEntry _ _ _ _ _ hc, hpc, ?_, hd, hrn⟩
  intro g hgm
  rcases List.mem_or_eq_of_mem_set hgm with hgm | hgm
  · exact hg g hgm
  · subst hgm
    exact nodup_keys_upsert _ _ (hg _ (gauge_mem hp))

theorem WF_writeCallback {st : State} {p : Nat} (vals : List String) (f : Callback)
    (h : WF st) (hp : p < st.derivedGauges.length) : WF (writeCallback p vals f st) := by
  obtain ⟨hb, hc, hpc, hg, hd, hrn⟩ := h
  refine ⟨hb, hc, ?_, hg, ?_, hrn⟩
  · cases hv : st.policyCount with
    | none =>
      simp only [hv, DerivedVarOK] at hpc
      simpa [writeCallback, State.setDerivedGauge, hv, DerivedVarOK] using hpc
    | some q =>
      simp only [hv, DerivedVarOK] at hpc
      obtain ⟨h1, h2, h3⟩ := hpc
      have : (writeCallback p vals f st).policyCount = some q := hv
      rw [this]
      refine ⟨by simpa [writeCallback, State.setDerivedGauge] using h1, ?_, h3⟩
      by_cases hq : q = p
      · subst hq
        simp only [writeCallback]
        rw [derivedGauge_set_self _ h1]
        exact h2
      · simp only [writeCallback]
        rw [derivedGauge_set_ne _ hq]
        exact h2
  · intro g hgm
    rcases List.mem_or_eq_of_mem_set hgm with hgm | hgm
    · exact hd g hgm
    · subst hgm
      exact nodup_keys_upsert _ _ (hd _ (derivedGauge_mem hp))

/-! ## The entries of a gauge before and after a setter -/

theorem gaugeEntry_eq_find (name : String) (labelVals : List String) (st : State) :
    gaugeEntry name labelVals st = find labelVals (gaugeEntries name st) := by
  unfold gaugeEntry gaugeEntries
  split <;> simp_all [find]

/-- Past the nil guard the checksum variable points to the registered gauge,
whose entries are those the registry showed before. -/
theorem ensureConfigChecksum_spec {st : State}
    (h : GaugeVarOK st st.configChecksum "config_checksum_int64" ["service"]) :
    ∃ p, (ensureConfigChecksum st).configChecksum = some p ∧
      p < (ensureConfigChecksum st).gauges.length ∧
      ((ensureConfigChecksum st).gauge p).labelKeys = ["service"] ∧
      find "config_checksum_int64" (ensureConfigChecksum st).metricRegistry = some (.gauge p) ∧
      ((ensureConfigChecksum st).gauge p).entries = gaugeEntries "config_checksum_int64" st := by
  cases hvar : st.configChecksum with
  | some p =>
    simp only [hvar, GaugeVarOK] at h
    obtain ⟨h1, h2, h3⟩ := h
    refine ⟨p, ?_⟩
    simp only [ensureConfigChecksum, hvar, gaugeEntries, h3]
    exact ⟨trivial, h1, h2, trivial, trivial⟩
  | none =>
    simp only [hvar, GaugeVarOK] at h
    refine ⟨st.gauges.length, ?_⟩
    simp only [ensureConfigChecksum, hvar, gaugeEntries, h]
    refine ⟨trivial, by simp, ?_, find_upsert_self _ _ _, ?_⟩ <;> simp [State.gauge]

theorem ensureBuildInfo_spec {st : State}
    (h : GaugeVarOK st st.buildInfo "build_info" buildInfoKeys) :
    ∃ p, (ensureBuildInfo st).buildInfo = some p ∧
      p < (ensureBuildInfo st).gauges.length ∧
      ((ensureBuildInfo st).gauge p).labelKeys = buildInfoKeys ∧
      find "build_info" (ensureBuildInfo st).metricRegistry = some (.gauge p) ∧
      ((ensureBuildInfo st).gauge p).entries = gaugeEntries "build_info" st := by
  cases hvar : st.buildInfo with
  | some p =>
    simp only [hvar, GaugeVarOK] at h
    obtain ⟨h1, h2, h3⟩ := h
    refine ⟨p, ?_⟩
    simp only [ensureBuildInfo, hvar, gaugeEntries, h3]
    exact ⟨trivial, h1, h2, trivial, trivial⟩
  | none =>
    simp only [hvar, GaugeVarOK] at h
    refine ⟨st.gauges.length, ?_⟩
    simp only [ensureBuildInfo, hvar, gaugeEntries, h]
    refine ⟨trivial, by simp, ?_, find_upsert_self _ _ _, ?_⟩ <;> simp [State.gauge]

/-- In a state where the checksum gauge is unregistered or was registered by
the setter, `SetConfigChecksum` returns, keeps that property, and the entries
of the gauge become the old ones with the entry for `service` overwritten. -/
theorem SetConfigChecksum_spec {st : State} (service : String) (checksum : Int)
    (h : GaugeVarOK st st.configChecksum "config_checksum_int64" ["service"]) :
    ∃ st1, SetConfigChecksum service checksum st = .returned st1 ∧
      GaugeVarOK st1 st1.configChecksum "config_checksum_int64" ["service"] ∧
      gaugeEntries "config_checksum_int64" st1 =
        upsert [service] checksum (gaugeEntries "config_checksum_int64" st) := by
  obtain ⟨p, hv, hp, hk, hr, he⟩ := ensureConfigChecksum_spec h
  have hnone : st.configChecksum = none →
      ∀ q, find "config_checksum_int64" st.metricRegistry ≠ some (.derivedGauge q) := by
    intro hvar q
    simp only [hvar, GaugeVarOK] at h
    simp [h]
  refine ⟨writeEntry p [service] checksum (ensureConfigChecksum st), ?_, ?_, ?_⟩
  · rw [SetConfigChecksum_ensure _ _ hnone]
    exact SetConfigChecksum_registered _ _ hv hp (by simp [hk])
  · have hok : GaugeVarOK (ensureConfigChecksum st) (some p) "config_checksum_int64"
        ["service"] := ⟨hp, hk, hr⟩
    have := GaugeVarOK_writeEntry (p := p) [service] checksum _ _ _ hok
    have hv2 : (writeEntry p [service] checksum (ensureConfigChecksum st)).configChecksum =
        some p := hv
    rw [hv2]
    exact this
  · have hr2 : find "config_checksum_int64"
        (writeEntry p [service] checksum (ensureConfigChecksum st)).metricRegistry =
        some (.gauge p) := hr
    simp only [gaugeEntries, hr2]
    rw [gauge_writeEntry_self _ _ hp, he]
    rfl

theorem SetBuildInfo_spec {st : State} (env : BuildEnv) (service : String)
    (h : GaugeVarOK st st.buildInfo "build_info" buildInfoKeys) :
    ∃ st1, SetBuildInfo env service st = .returned st1 ∧
      GaugeVarOK st1 st1.buildInfo "build_info" buildInfoKeys ∧
      gaugeEntries "build_info" st1 =
        upsert [service, env.fullVersion, env.gitCommit, env.runtimeVersion] 1
          (gaugeEntries "build_info" st) := by
  obtain ⟨p, hv, hp, hk, hr, he⟩ := ensureBuildInfo_spec h
  have hnone : st.buildInfo = none →
      ∀ q, find "build_info" st.metricRegistry ≠ some (.derivedGauge q) := by
    intro hvar q
    simp only [hvar, GaugeVarOK] at h
    simp [h]
  refine ⟨writeEntry p [service, env.fullVersion, env.gitCommit, env.runtimeVersion] 1
    (ensureBuildInfo st), ?_, ?_, ?_⟩
  · rw [SetBuildInfo_ensure _ _ hnone]
    exact SetBuildInfo_registered _ _ hv hp (by simp [hk, buildInfoKeys])
  · have hok : GaugeVarOK (ensureBuildInfo st) (some p) "build_info" buildInfoKeys :=
      ⟨hp, hk, hr⟩
    have := GaugeVarOK_writeEntry (p := p)
      [service, env.fullVersion, env.gitCommit, env.runtimeVersion] 1 _ _ _ hok
    have hv2 : (writeEntry p [service, env.fullVersion, env.gitCommit, env.runtimeVersion] 1
        (ensureBuildInfo st)).buildInfo = some p := hv
    rw [hv2]
    exact this
  · have hr2 : find "build_info"
        (writeEntry p [service, env.fullVersion, env.gitCommit, env.runtimeVersion] 1
          (ensureBuildInfo st)).metricRegistry = some (.gauge p) := hr
    simp only [gaugeEntries, hr2]
    rw [gauge_writeEntry_self _ _ hp, he]
    rfl

theorem started_checksum_unregistered :
    GaugeVarOK started started.configChecksum "config_checksum_int64" ["service"] := by
  simp [started, State.initial, GaugeVarOK, find]

/-- After a list of `SetConfigChecksum` calls every label holds the checksum
of the last call made for it, or what it held before when there was none. -/
theorem checksum_calls (lib : Collaborators) (calls : List (String × Int)) :
    ∀ st : State, GaugeVarOK st st.configChecksum "config_checksum_int64" ["service"] →
      ∃ st1, run lib (calls.map fun sc => Op.setConfigChecksum sc.1 sc.2) st = .returned st1 ∧
        ∀ s, gaugeEntry "config_checksum_int64" [s] st1 =
          match lastChecksum s calls with
          | some c => some c
          | none => gaugeEntry "config_checksum_int64" [s] st := by
  induction calls with
  | nil =>
    intro st _
    exact ⟨st, rfl, fun s => by simp [lastChecksum]⟩
  | cons hd tl ih =>
    intro st h
    obtain ⟨s0, c0⟩ := hd
    obtain ⟨st1, hret, hok, hent⟩ := SetConfigChecksum_spec s0 c0 h
    obtain ⟨st2, hrun, hall⟩ := ih st1 hok
    refine ⟨st2, ?_, ?_⟩
    · simp only [List.map_cons, run, Op.apply, hret]
      exact hrun
    · intro s
      rw [hall s]
      simp only [lastChecksum]
      cases lastChecksum s tl with
      | some c => rfl
      | none =>
        simp only [gaugeEntry_eq_find, hent]
        by_cases hs : s0 = s
        · subst hs
          simp [find_upsert_self]
        · have hne : [s] ≠ [s0] := by
            intro hh
            exact hs (List.singleton_inj.mp hh).symm
          simp [hs, find_upsert_ne hne]

theorem occurrences_eq_one {α : Type} [DecidableEq α] {k : α} {l : List α} (hn : l.Nodup)
    (hm : k ∈ l) : occurrences k l = 1 := by
  have := List.count_eq_one_of_mem hn hm
  rw [List.count, List.countP_eq_length_filter] at this
  exact this

theorem set_getD_self {α : Type} (d : α) : ∀ {l : List α} {p : Nat}, p < l.length →
    l.set p (l.getD p d) = l
  | [], _, h => by simp at h
  | _ :: _, 0, _ => by simp
  | _ :: tl, p + 1, h => by
    have := set_getD_self d (l := tl) (p := p) (by simpa using h)
    simpa using this

theorem writeEntry_same {st : State} {p : Nat} {vals : List String} {v : Int}
    (hp : p < st.gauges.length) (h : find vals (st.gauge p).entries = some v) :
    writeEntry p vals v st = st := by
  have hg : st.gauges.set p (st.gauge p) = st.gauges := set_getD_self _ hp
  simp only [writeEntry, upsert_of_find_some h, State.setGauge]
  rw [hg]

theorem WF.buildInfoLabels_nodup {st : State} (h : WF st) :
    (gaugeLabels "build_info" st).Nodup := by
  unfold gaugeLabels gaugeEntries
  split
  · rename_i p _
    by_cases hp : p < st.gauges.length
    · exact h.gaugeKeys _ (gauge_mem hp)
    · simp only [State.gauge, List.getD_eq_default _ _ (Nat.le_of_not_lt hp)]
      exact List.nodup_nil
  · exact List.nodup_nil

/-- Once `SetBuildInfo` has run, running it again with the same arguments
changes nothing. -/
theorem SetBuildInfo_again {st1 : State} (env : BuildEnv) (service : String)
    (hok : GaugeVarOK st1 st1.buildInfo "build_info" buildInfoKeys)
    (hent : find (buildInfoLabels env service) (gaugeEntries "build_info" st1) = some 1) :
    SetBuildInfo env service st1 = .returned st1 := by
  cases hv : st1.buildInfo with
  | none =>
    simp only [hv, GaugeVarOK] at hok
    simp [gaugeEntries, hok, find] at hent
  | some p =>
    simp only [hv, GaugeVarOK] at hok
    obtain ⟨hp, hk, hr⟩ := hok
    simp only [gaugeEntries, hr] at hent
    rw [SetBuildInfo_registered env service hv hp (by simp [hk, buildInfoKeys])]
    exact congrArg Outcome.returned (writeEntry_same hp hent)

/-- After a list of `SetBuildInfo` calls the gauge holds 1 under every label
tuple a call was made with, and what it held before under every other one. -/
theorem buildInfo_calls (lib : Collaborators) (calls : List (BuildEnv × String)) :
    ∀ st : State, GaugeVarOK st st.buildInfo "build_info" buildInfoKeys →
      (gaugeLabels "build_info" st).Nodup →
      ∃ st1, run lib (calls.map fun c => Op.setBuildInfo c.1 c.2) st = .returned st1 ∧
        (gaugeLabels "build_info" st1).Nodup ∧
        ∀ k, find k (gaugeEntries "build_info" st1) =
          if k ∈ calls.map (fun c => buildInfoLabels c.1 c.2) then some 1
          else find k (gaugeEntries "build_info" st) := by
  induction calls with
  | nil =>
    intro st _ hn
    exact ⟨st, rfl, hn, fun k => by simp⟩
  | cons hd tl ih =>
    intro st h hn
    obtain ⟨env, s⟩ := hd
    obtain ⟨st1, hret, hok, hent⟩ := SetBuildInfo_spec env s h
    have hn1 : (gaugeLabels "build_info" st1).Nodup := by
      unfold gaugeLabels
      rw [hent]
      exact nodup_keys_upsert _ _ hn
    obtain ⟨st2, hrun, hn2, hall⟩ := ih st1 hok hn1
    refine ⟨st2, ?_, hn2, ?_⟩
    · simp only [List.map_cons, run, Op.apply, hret]
      exact hrun
    · intro k
      have hent1 : gaugeEntries "build_info" st1 =
          upsert (buildInfoLabels env s) 1 (gaugeEntries "build_info" st) := hent
      rw [hall k, hent1, List.map_cons]
      by_cases hk : k ∈ tl.map (fun c => buildInfoLabels c.1 c.2)
      · rw [if_pos hk, if_pos (List.mem_cons_of_mem _ hk)]
      · by_cases hk0 : k = buildInfoLabels env s
        · subst hk0
          rw [if_neg hk, if_pos (List.mem_cons_self _ _), find_upsert_self]
        · rw [if_neg hk, if_neg (by simp [hk, hk0]), find_upsert_ne hk0]

theorem mem_iff_find {κ α : Type} [DecidableEq κ] {l : List (κ × α)}
    (hn : (l.map Prod.fst).Nodup) (k : κ) (v : α) : (k, v) ∈ l ↔ find k l = some v := by
  induction l with
  | nil => simp [find]
  | cons hd tl ih =>
    obtain ⟨k', v'⟩ := hd
    simp only [List.map_cons, List.nodup_cons] at hn
    obtain ⟨hk', hn'⟩ := hn
    by_cases h : k' = k
    · subst h
      have hnot : (k', v) ∉ tl := fun hm => hk' (List.mem_map_of_mem Prod.fst hm)
      simp only [find, if_true, List.mem_cons, hnot, or_false, Prod.mk.injEq, true_and,
        Option.some.injEq]
      exact eq_comm
    · have hne : (k, v) ≠ (k', v') := fun hh => h (Prod.mk.inj hh).1.symm
      simp only [find, h, if_false, List.mem_cons, hne, false_or]
      exact ih hn'

theorem mem_upsert {κ α : Type} [DecidableEq κ] {l : List (κ × α)}
    (hn : (l.map Prod.fst).Nodup) (k k' : κ) (v v' : α) :
    (k', v') ∈ upsert k v l ↔ (k' = k ∧ v' = v) ∨ (k' ≠ k ∧ (k', v') ∈ l) := by
  rw [mem_iff_find (nodup_keys_upsert k v hn), mem_iff_find hn]
  by_cases h : k' = k
  · subst h
    simp only [find_upsert_self, Option.some.injEq, true_and, ne_eq, not_true_eq_false,
      false_and, or_false]
    exact eq_comm
  · simp [find_upsert_ne h, h]

/-- The callbacks an export read invokes for the metric called `name` are
those held by the entries of the derived gauge registered under that name. -/
theorem mem_Read_invoked (call : Callback → Int) {st : State}
    (hn : (st.metricRegistry.map Prod.fst).Nodup) (name : String) (k : List String)
    (g : Callback) :
    (name, k, g) ∈ (Read call st).2 ↔ (k, g) ∈ derivedEntries name st := by
  simp only [Read, List.mem_flatMap]
  constructor
  · rintro ⟨⟨n, ref⟩, hmem, hin⟩
    cases ref with
    | gauge p => simp [readMetric] at hin
    | derivedGauge p =>
      simp only [readMetric, List.mem_map, Prod.mk.injEq] at hin
      obtain ⟨e, he, hn1, hk1, hg1⟩ := hin
      subst hn1
      have hf := (mem_iff_find hn n (.derivedGauge p)).mp hmem
      simp only [derivedEntries, hf]
      rw [← hk1, ← hg1]
      exact he
  · intro h
    unfold derivedEntries at h
    split at h
    · rename_i p hf
      refine ⟨(name, .derivedGauge p), (mem_iff_find hn _ _).mpr hf, ?_⟩
      simp only [readMetric, List.mem_map]
      exact ⟨(k, g), h, rfl⟩
    · simp at h

/-- The points an export read reports for the metric called `name`. -/
theorem mem_Read_points (call : Callback → Int) {st : State}
    (hn : (st.metricRegistry.map Prod.fst).Nodup) (name : String) (k : List String)
    (v : Int) :
    (name, k, v) ∈ (Read call st).1 ↔
      (k, v) ∈ gaugeEntries name st ∨ ∃ g, (k, g) ∈ derivedEntries name st ∧ v = call g := by
  simp only [Read, List.mem_flatMap]
  constructor
  · rintro ⟨⟨n, ref⟩, hmem, hin⟩
    cases ref with
    | gauge p =>
      simp only [readMetric, List.mem_map, Prod.mk.injEq] at hin
      obtain ⟨e, he, hn1, hk1, hv1⟩ := hin
      subst hn1
      have hf := (mem_iff_find hn n (.gauge p)).mp hmem
      left
      simp only [gaugeEntries, hf]
      rw [← hk1, ← hv1]
      exact he
    | derivedGauge p =>
      simp only [readMetric, List.mem_map, Prod.mk.injEq] at hin
      obtain ⟨e, he, hn1, hk1, hv1⟩ := hin
      subst hn1
      have hf := (mem_iff_find hn n (.derivedGauge p)).mp hmem
      right
      refine ⟨e.2, ?_, hv1.symm⟩
      simp only [derivedEntries, hf]
      rw [← hk1]
      exact he
  · rintro (h | ⟨g, h, hv⟩)
    · unfold gaugeEntries at h
      split at h
      · rename_i p hf
        refine ⟨(name, .gauge p), (mem_iff_find hn _ _).mpr hf, ?_⟩
        simp only [readMetric, List.mem_map]
        exact ⟨(k, v), h, rfl⟩
      · simp at h
    · unfold derivedEntries at h
      split at h
      · rename_i p hf
        refine ⟨(name, .derivedGauge p), (mem_iff_find hn _ _).mpr hf, ?_⟩
        simp only [readMetric, List.mem_map]
        exact ⟨(k, g), h, by rw [hv]⟩
      · simp at h

theorem WF.policyCountLabels_nodup {st : State} (h : WF st) :
    ((derivedEntries "policy_count_total" st).map Prod.fst).Nodup := by
  unfold derivedEntries
  split
  · rename_i p _
    by_cases hp : p < st.derivedGauges.length
    · exact h.derivedKeys _ (derivedGauge_mem hp)
    · simp only [State.derivedGauge, List.getD_eq_default _ _ (Nat.le_of_not_lt hp)]
      exact List.nodup_nil
  · exact List.nodup_nil

/-- In a well-formed state `AddPolicyCountCallback` returns, the state stays
well-formed, and the entries of the policy-count gauge become the old ones
with the callback for `service` replaced. -/
theorem AddPolicyCountCallback_spec {st : State} (service : String) (f : Callback)
    (h : WF st) :
    ∃ st1, AddPolicyCountCallback service f st = .returned st1 ∧ WF st1 ∧
      derivedEntries "policy_count_total" st1 =
        upsert [service] f (derivedEntries "policy_count_total" st) ∧
      gaugeEntries "policy_count_total" st1 = [] := by
  have hw := WF_ensurePolicyCount h
  have hnone : st.policyCount = none →
      ∀ q, find "policy_count_total" st.metricRegistry ≠ some (.gauge q) := by
    intro hvar q
    have := h.policyCount
    simp only [hvar, DerivedVarOK] at this
    simp [this]
  have hent : derivedEntries "policy_count_total" (ensurePolicyCount st) =
      derivedEntries "policy_count_total" st := by
    cases hvar : st.policyCount with
    | some p => simp [ensurePolicyCount, hvar]
    | none =>
      have := h.policyCount
      simp only [hvar, DerivedVarOK] at this
      simp [ensurePolicyCount, hvar, derivedEntries, this, find_upsert_self,
        State.derivedGauge]
  have hv : ∃ p, (ensurePolicyCount st).policyCount = some p := by
    cases hvar : st.policyCount with
    | some p => exact ⟨p, by simp [ensurePolicyCount, hvar]⟩
    | none => exact ⟨st.derivedGauges.length, by simp [ensurePolicyCount, hvar]⟩
  obtain ⟨p, hv⟩ := hv
  have hok := hw.policyCount
  simp only [hv, DerivedVarOK] at hok
  obtain ⟨hp, hk, hr⟩ := hok
  refine ⟨writeCallback p [service] f (ensurePolicyCount st), ?_,
    WF_writeCallback _ _ hw hp, ?_, ?_⟩
  · rw [AddPolicyCountCallback_ensure _ _ hnone]
    exact AddPolicyCountCallback_registered _ _ hv (by simp [hk])
  · have hr2 : find "policy_count_total"
        (writeCallback p [service] f (ensurePolicyCount st)).metricRegistry =
        some (.derivedGauge p) := hr
    rw [← hent]
    simp only [derivedEntries, hr2, hr]
    simp only [writeCallback]
    rw [derivedGauge_set_self _ hp]
  · have hr2 : find "policy_count_total"
        (writeCallback p [service] f (ensurePolicyCount st)).metricRegistry =
        some (.derivedGauge p) := hr
    simp only [gaugeEntries, hr2]

/-! ## Recording into the registered views -/

/-- Recording a measurement changes the view data registered under a name
only in its rows. -/
theorem lookupView_record (name : String) (tags : List (String × String)) (m : Measure)
    (v : Int) (views : List ViewData) :
    lookupView name (recordMeasurement tags m v views) =
      (lookupView name views).map fun vd =>
        if vd.view.measure = m then
          { vd with rows := upsert (vd.view.tagKeys.map (fun k => find k tags)) v vd.rows }
        else vd := by
  induction views with
  | nil => rfl
  | cons hd tl ih =>
    simp only [lookupView, recordMeasurement, List.map_cons] at ih ⊢
    by_cases hm : hd.view.measure = m <;> by_cases hn : hd.view.name = name <;>
      simp [List.find?_cons, hm, hn, ih]

theorem Registered.lookup {v : View} {st : State} (h : Registered v st) :
    ∃ rows, lookupView v.name st.views = some ⟨v, rows⟩ := by
  unfold Registered at h
  cases hl : lookupView v.name st.views with
  | none => simp [hl] at h
  | some vd =>
    simp only [hl, Option.map_some', Option.some.injEq] at h
    exact ⟨vd.rows, by rw [← h]⟩

theorem started_views :
    Registered ConfigLastReloadView started ∧ Registered ConfigLastReloadSuccessView started := by
  constructor <;> (unfold Registered; decide)

/-- With an accepted tag value both recordings of the success path take place. -/
theorem SetConfigInfo_success_ok (lib : Collaborators) (now : Int) (s checksum : String)
    (st : State) (hok : lib.tagValueOK s = true) :
    SetConfigInfo lib now s true checksum st =
      .returned
        { st with
          views := recordMeasurement [(keyService, s)] configLastReloadSuccess 1
            (recordMeasurement [(keyService, s)] configLastReload now st.views) } := by
  simp [SetConfigInfo, RecordWithTags, hok]

/-- With a rejected tag value both recordings fail and are only logged. -/
theorem SetConfigInfo_success_rejected (lib : Collaborators) (now : Int) (s checksum : String)
    (st : State) (hbad : lib.tagValueOK s = false) :
    SetConfigInfo lib now s true checksum st =
      .returned
        (logError "internal/metrics: failed to record config reload"
          (logError "internal/metrics: failed to record config checksum timestamp" st)) := by
  simp [SetConfigInfo, RecordWithTags, hbad]

/-! ## Registration happens once -/

theorem SameVars_refl (st : State) : SameVars st st := ⟨rfl, rfl, rfl, rfl⟩

theorem SameVars_trans {a b c : State} (h1 : SameVars a b) (h2 : SameVars b c) :
    SameVars a c :=
  ⟨h2.1.trans h1.1, h2.2.1.trans h1.2.1, h2.2.2.1.trans h1.2.2.1, h2.2.2.2.trans h1.2.2.2⟩

theorem SameVars_GetEntry (p : Nat) (vals : List String) (st : State) :
    SameVars st (GetEntry p vals st).2 := by
  unfold GetEntry
  dsimp only
  split
  · exact SameVars_refl st
  · split
    · exact SameVars_refl st
    · exact ⟨rfl, rfl, rfl, rfl⟩

theorem SameVars_EntrySet (m : Option EntryRef) (v : Int) (st : State) :
    SameVars st (EntrySet m v st).state := by
  unfold EntrySet
  split
  · exact SameVars_refl st
  · exact ⟨rfl, rfl, rfl, rfl⟩

theorem SameVars_logError (msg : String) (st : State) : SameVars st (logError msg st) :=
  ⟨rfl, rfl, rfl, rfl⟩

/-- The lookup, the logging of its error and the `Set` leave the variables alone. -/
theorem SameVars_tail (p : Nat) (vals : List String) (v : Int) (msg : String) (st : State) :
    SameVars st
      (match GetEntry p vals st with
        | (.error _, st2) => EntrySet none v (logError msg st2)
        | (.ok m, st2) => EntrySet (some m) v st2).state := by
  have h := SameVars_GetEntry p vals st
  generalize GetEntry p vals st = r at h
  obtain ⟨e, st2⟩ := r
  cases e with
  | error _ =>
    exact SameVars_trans h (SameVars_trans (SameVars_logError msg st2) (SameVars_EntrySet _ _ _))
  | ok m => exact SameVars_trans h (SameVars_EntrySet _ _ _)

theorem SameVars_upsertTail (p : Nat) (f : Callback) (vals : List String) (msg : String)
    (st : State) :
    SameVars st
      (match UpsertEntry p f vals st with
        | (.error _, st2) => Outcome.returned (logError msg st2)
        | (.ok _, st2) => Outcome.returned st2).state := by
  unfold UpsertEntry
  dsimp only
  split <;> rename_i heq <;> split at heq <;> simp only [Prod.mk.injEq] at heq <;>
    obtain ⟨_, rfl⟩ := heq <;> exact ⟨rfl, rfl, rfl, rfl⟩

theorem occurrences_append {α : Type} [DecidableEq α] (k : α) (l l' : List α) :
    occurrences k (l ++ l') = occurrences k l + occurrences k l' := by
  simp [occurrences]

theorem occurrences_eq_zero {α : Type} [DecidableEq α] {k : α} {l : List α} (h : k ∉ l) :
    occurrences k l = 0 := by
  simp only [occurrences, List.length_eq_zero, List.filter_eq_nil_iff, decide_eq_true_eq]
  intro a ha hak
  exact h (hak ▸ ha)

theorem callsFor_length {name : String} {calls : List (String × Bool)}
    (h : ∀ c ∈ calls, c.2 = true) :
    (callsFor name calls).length = occurrences (name, true) calls := by
  unfold callsFor occurrences
  congr 1
  apply List.filter_congr
  intro c hc
  obtain ⟨n, b⟩ := c
  have hb : b = true := h _ hc
  subst hb
  simp

theorem Once.same (name : String) (x : Option Nat) : Once name x x [] :=
  ⟨fun _ h => h, fun _ _ => List.not_mem_nil _, by simp [occurrences],
    fun h => absurd h (List.not_mem_nil _)⟩

theorem Once_trans {name : String} {x x1 x2 : Option Nat} {n1 n2 : List (String × Bool)}
    (h1 : Once name x x1 n1) (h2 : Once name x1 x2 n2) : Once name x x2 (n1 ++ n2) := by
  have hkeep : x1 ≠ none → x2 ≠ none := by
    intro hx
    cases hx1 : x1 with
    | none => exact absurd hx1 hx
    | some p => simp [h2.kept p hx1]
  refine ⟨fun p hp => h2.kept p (h1.kept p hp), ?_, ?_, ?_⟩
  · intro hx b hb
    rcases List.mem_append.mp hb with hb | hb
    · exact h1.reused hx b hb
    · have hx1 : x1 ≠ none := by
        cases hxx : x with
        | none => exact absurd hxx hx
        | some p => simp [h1.kept p hxx]
      exact h2.reused hx1 b hb
  · rw [occurrences_append]
    by_cases hm : (name, true) ∈ n1
    · have := occurrences_eq_zero (h2.reused (h1.stored hm) true)
      have := h1.atMostOnce
      omega
    · have := occurrences_eq_zero hm
      have := h2.atMostOnce
      omega
  · intro hm
    rcases List.mem_append.mp hm with hm | hm
    · exact hkeep (h1.stored hm)
    · exact h2.stored hm

/-- An add-gauge call for a gauge whose variable was nil. -/
theorem Once.single_self (name : String) (b : Bool) (x1 : Option Nat)
    (h : b = true → x1 ≠ none) : Once name none x1 [(name, b)] := by
  refine ⟨fun p hp => Option.noConfusion hp, fun hx => absurd rfl hx, ?_, ?_⟩
  · cases b <;> simp [occurrences]
  · intro hm
    simp only [List.mem_singleton, Prod.mk.injEq, true_and] at hm
    exact h hm.symm

/-- An add-gauge call for another gauge. -/
theorem Once.single_other {name other : String} (hne : name ≠ other) (b : Bool)
    (x : Option Nat) : Once name x x [(other, b)] := by
  refine ⟨fun _ h => h, ?_, ?_, ?_⟩
  · intro _ b' hm
    simp only [List.mem_singleton, Prod.mk.injEq] at hm
    exact hne hm.1
  · have hz : occurrences (name, true) [(other, b)] = 0 := by
      apply occurrences_eq_zero
      intro hm
      simp only [List.mem_singleton, Prod.mk.injEq] at hm
      exact hne hm.1
    rw [hz]
    exact Nat.zero_le 1
  · intro hm
    simp only [List.mem_singleton, Prod.mk.injEq] at hm
    exact absurd hm.1 hne

theorem Steps_refl (st : State) : Steps st st :=
  ⟨[], by simp, Once.same _ _, Once.same _ _, Once.same _ _⟩

theorem Steps_trans {a b c : State} (h1 : Steps a b) (h2 : Steps b c) : Steps a c := by
  obtain ⟨n1, hc1, hb1, hk1, hp1⟩ := h1
  obtain ⟨n2, hc2, hb2, hk2, hp2⟩ := h2
  exact ⟨n1 ++ n2, by rw [hc2, hc1, List.append_assoc], Once_trans hb1 hb2,
    Once_trans hk1 hk2, Once_trans hp1 hp2⟩

theorem Steps.of_same {st st1 : State} (h : SameVars st st1) : Steps st st1 := by
  obtain ⟨h1, h2, h3, h4⟩ := h
  refine ⟨[], by simp [h4], ?_, ?_, ?_⟩
  · rw [h1]
    exact Once.same _ _
  · rw [h2]
    exact Once.same _ _
  · rw [h3]
    exact Once.same _ _

/-- A refused registration: the setter logs and returns. -/
theorem SetBuildInfo_refused (env : BuildEnv) (s : String) {st : State} {q : Nat}
    (hv : st.buildInfo = none)
    (hf : find "build_info" st.metricRegistry = some (.derivedGauge q)) :
    SetBuildInfo env s st =
      .returned
        { st with
          logs := st.logs ++ ["internal/metrics: failed to register build info metric"]
          addGaugeCalls := st.addGaugeCalls ++ [("build_info", false)] } := by
  unfold SetBuildInfo AddInt64Gauge
  simp [hv, hf, logError]

theorem SetConfigChecksum_refused (s : String) (c : Int) {st : State} {q : Nat}
    (hv : st.configChecksum = none)
    (hf : find "config_checksum_int64" st.metricRegistry = some (.derivedGauge q)) :
    SetConfigChecksum s c st =
      .returned
        { st with
          logs := st.logs ++ ["internal/metrics: failed to register config checksum metric"]
          addGaugeCalls := st.addGaugeCalls ++ [("config_checksum_int64", false)] } := by
  unfold SetConfigChecksum AddInt64Gauge
  simp [hv, hf, logError]

theorem AddPolicyCountCallback_refused (s : String) (f : Callback) {st : State} {q : Nat}
    (hv : st.policyCount = none)
    (hf : find "policy_count_total" st.metricRegistry = some (.gauge q)) :
    AddPolicyCountCallback s f st =
      .returned
        { st with
          logs := st.logs ++ ["internal/metrics: failed to register policy count metric"]
          addGaugeCalls := st.addGaugeCalls ++ [("policy_count_total", false)] } := by
  unfold AddPolicyCountCallback AddInt64DerivedGauge
  simp [hv, hf, logError]

theorem SetBuildInfo_same {st : State} {p : Nat} (env : BuildEnv) (s : String)
    (hv : st.buildInfo = some p) : SameVars st (SetBuildInfo env s st).state := by
  unfold SetBuildInfo
  simp only [hv]
  exact SameVars_tail _ _ _ _ _

theorem SetConfigChecksum_same {st : State} {p : Nat} (s : String) (c : Int)
    (hv : st.configChecksum = some p) : SameVars st (SetConfigChecksum s c st).state := by
  unfold SetConfigChecksum
  simp only [hv]
  exact SameVars_tail _ _ _ _ _

theorem AddPolicyCountCallback_same {st : State} {p : Nat} (s : String) (f : Callback)
    (hv : st.policyCount = some p) : SameVars st (AddPolicyCountCallback s f st).state := by
  unfold AddPolicyCountCallback
  simp only [hv]
  exact SameVars_upsertTail _ _ _ _ _

theorem SetBuildInfo_steps (env : BuildEnv) (s : String) (st : State) :
    Steps st (SetBuildInfo env s st).state := by
  cases hv : st.buildInfo with
  | some p => exact Steps.of_same (SetBuildInfo_same env s hv)
  | none =>
    by_cases hf : ∃ q, find "build_info" st.metricRegistry = some (.derivedGauge q)
    · obtain ⟨q, hf⟩ := hf
      rw [SetBuildInfo_refused env s hv hf]
      refine ⟨[("build_info", false)], rfl, ?_, ?_, ?_⟩
      · rw [hv]
        exact Once.single_self _ _ _ (fun h => Bool.noConfusion h)
      · exact Once.single_other (by decide) _ _
      · exact Once.single_other (by decide) _ _
    · rw [SetBuildInfo_ensure env s (fun _ q hq => hf ⟨q, hq⟩)]
      have hreg : Steps st (ensureBuildInfo st) := by
        unfold ensureBuildInfo
        rw [hv]
        refine ⟨[("build_info", true)], rfl, ?_, ?_, ?_⟩
        · rw [hv]
          exact Once.single_self _ _ _ (fun _ => by simp)
        · exact Once.single_other (by decide) _ _
        · exact Once.single_other (by decide) _ _
      have hsome : (ensureBuildInfo st).buildInfo = some st.gauges.length := by
        simp [ensureBuildInfo, hv]
      exact Steps_trans hreg (Steps.of_same (SetBuildInfo_same env s hsome))

theorem SetConfigChecksum_steps (s : String) (c : Int) (st : State) :
    Steps st (SetConfigChecksum s c st).state := by
  cases hv : st.configChecksum with
  | some p => exact Steps.of_same (SetConfigChecksum_same s c hv)
  | none =>
    by_cases hf : ∃ q, find "config_checksum_int64" st.metricRegistry = some (.derivedGauge q)
    · obtain ⟨q, hf⟩ := hf
      rw [SetConfigChecksum_refused s c hv hf]
      refine ⟨[("config_checksum_int64", false)], rfl, ?_, ?_, ?_⟩
      · exact Once.single_other (by decide) _ _
      · rw [hv]
        exact Once.single_self _ _ _ (fun h => Bool.noConfusion h)
      · exact Once.single_other (by decide) _ _
    · rw [SetConfigChecksum_ensure s c (fun _ q hq => hf ⟨q, hq⟩)]
      have hreg : Steps st (ensureConfigChecksum st) := by
        unfold ensureConfigChecksum
        rw [hv]
        refine ⟨[("config_checksum_int64", true)], rfl, ?_, ?_, ?_⟩
        · exact Once.single_other (by decide) _ _
        · rw [hv]
          exact Once.single_self _ _ _ (fun _ => by simp)
        · exact Once.single_other (by decide) _ _
      have hsome : (ensureConfigChecksum st).configChecksum = some st.gauges.length := by
        simp [ensureConfigChecksum, hv]
      exact Steps_trans hreg (Steps.of_same (SetConfigChecksum_same s c hsome))

theorem AddPolicyCountCallback_steps (s : String) (f : Callback) (st : State) :
    Steps st (AddPolicyCountCallback s f st).state := by
  cases hv : st.policyCount with
  | some p => exact Steps.of_same (AddPolicyCountCallback_same s f hv)
  | none =>
    by_cases hf : ∃ q, find "policy_count_total" st.metricRegistry = some (.gauge q)
    · obtain ⟨q, hf⟩ := hf
      rw [AddPolicyCountCallback_refused s f hv hf]
      refine ⟨[("policy_count_total", false)], rfl, ?_, ?_, ?_⟩
      · exact Once.single_other (by decide) _ _
      · exact Once.single_other (by decide) _ _
      · rw [hv]
        exact Once.single_self _ _ _ (fun h => Bool.noConfusion h)
    · rw [AddPolicyCountCallback_ensure s f (fun _ q hq => hf ⟨q, hq⟩)]
      have hreg : Steps st (ensurePolicyCount st) := by
        unfold ensurePolicyCount
        rw [hv]
        refine ⟨[("policy_count_total", true)], rfl, ?_, ?_, ?_⟩
        · exact Once.single_other (by decide) _ _
        · exact Once.single_other (by decide) _ _
        · rw [hv]
          exact Once.single_self _ _ _ (fun _ => by simp)
      have hsome : (ensurePolicyCount st).policyCount = some st.derivedGauges.length := by
        simp [ensurePolicyCount, hv]
      exact Steps_trans hreg (Steps.of_same (AddPolicyCountCallback_same s f hsome))

theorem SetConfigInfo_same (lib : Collaborators) (now : Int) (s : String) (success : Bool)
    (checksum : String) (st : State) :
    SameVars st (SetConfigInfo lib now s success checksum st).state := by
  cases success with
  | false => exact ⟨rfl, rfl, rfl, rfl⟩
  | true =>
    cases h : lib.tagValueOK s with
    | false =>
      rw [SetConfigInfo_success_rejected lib now s checksum st h]
      exact ⟨rfl, rfl, rfl, rfl⟩
    | true =>
      rw [SetConfigInfo_success_ok lib now s checksum st h]
      exact ⟨rfl, rfl, rfl, rfl⟩

theorem RegisterInfoMetrics_same (lib : Collaborators) (st : State) :
    SameVars st (RegisterInfoMetrics lib st).state := by
  unfold RegisterInfoMetrics AddProducer
  split <;> exact ⟨rfl, rfl, rfl, rfl⟩

theorem Op.apply_steps (lib : Collaborators) (op : Op) (st : State) :
    Steps st (op.apply lib st).state := by
  cases op with
  | setBuildInfo env s => exact SetBuildInfo_steps env s st
  | setConfigInfo now s success checksum =>
    exact Steps.of_same (SetConfigInfo_same lib now s success checksum st)
  | registerInfoMetrics => exact Steps.of_same (RegisterInfoMetrics_same lib st)
  | setConfigChecksum s c => exact SetConfigChecksum_steps s c st
  | addPolicyCountCallback s f => exact AddPolicyCountCallback_steps s f st

/-! ## Every operation returns in a well-formed state -/

theorem Quiet.of_eq {st st1 : State} (h : st1.logs = st.logs) : Quiet st st1 :=
  ⟨[], by simp [h], fun _ hm => absurd hm (List.not_mem_nil _)⟩

theorem Quiet.append {a b c : State} (h1 : Quiet a b) (h2 : Quiet b c) : Quiet a c := by
  obtain ⟨e1, hl1, he1⟩ := h1
  obtain ⟨e2, hl2, he2⟩ := h2
  refine ⟨e1 ++ e2, by rw [hl2, hl1, List.append_assoc], ?_⟩
  intro m hm
  rcases List.mem_append.mp hm with hm | hm
  · exact he1 m hm
  · exact he2 m hm

theorem ensureBuildInfo_logs (st : State) : (ensureBuildInfo st).logs = st.logs := by
  unfold ensureBuildInfo
  split <;> rfl

theorem ensureConfigChecksum_logs (st : State) : (ensureConfigChecksum st).logs = st.logs := by
  unfold ensureConfigChecksum
  split <;> rfl

theorem ensurePolicyCount_logs (st : State) : (ensurePolicyCount st).logs = st.logs := by
  unfold ensurePolicyCount
  split <;> rfl

theorem SetBuildInfo_WF {st : State} (env : BuildEnv) (s : String) (h : WF st) :
    ∃ st1, SetBuildInfo env s st = .returned st1 ∧ WF st1 ∧ Quiet st st1 := by
  obtain ⟨p, hv, hp, hk, _, _⟩ := ensureBuildInfo_spec h.buildInfo
  have hnone : st.buildInfo = none →
      ∀ q, find "build_info" st.metricRegistry ≠ some (.derivedGauge q) := by
    intro hvar q
    have := h.buildInfo
    simp only [hvar, GaugeVarOK] at this
    simp [this]
  refine ⟨writeEntry p (buildInfoLabels env s) 1 (ensureBuildInfo st), ?_,
    WF_writeEntry _ _ (WF_ensureBuildInfo h) hp, Quiet.of_eq (ensureBuildInfo_logs st)⟩
  rw [SetBuildInfo_ensure _ _ hnone]
  exact SetBuildInfo_registered _ _ hv hp (by simp [hk, buildInfoKeys])

theorem SetConfigChecksum_WF {st : State} (s : String) (c : Int) (h : WF st) :
    ∃ st1, SetConfigChecksum s c st = .returned st1 ∧ WF st1 ∧ Quiet st st1 := by
  obtain ⟨p, hv, hp, hk, _, _⟩ := ensureConfigChecksum_spec h.configChecksum
  have hnone : st.configChecksum = none →
      ∀ q, find "config_checksum_int64" st.metricRegistry ≠ some (.derivedGauge q) := by
    intro hvar q
    have := h.configChecksum
    simp only [hvar, GaugeVarOK] at this
    simp [this]
  refine ⟨writeEntry p [s] c (ensureConfigChecksum st), ?_,
    WF_writeEntry _ _ (WF_ensureConfigChecksum h) hp,
    Quiet.of_eq (ensureConfigChecksum_logs st)⟩
  rw [SetConfigChecksum_ensure _ _ hnone]
  exact SetConfigChecksum_registered _ _ hv hp (by simp [hk])

theorem AddPolicyCountCallback_WF {st : State} (s : String) (f : Callback) (h : WF st) :
    ∃ st1, AddPolicyCountCallback s f st = .returned st1 ∧ WF st1 ∧ Quiet st st1 := by
  have hw := WF_ensurePolicyCount h
  have hnone : st.policyCount = none →
      ∀ q, find "policy_count_total" st.metricRegistry ≠ some (.gauge q) := by
    intro hvar q
    have := h.policyCount
    simp only [hvar, DerivedVarOK] at this
    simp [this]
  have hv : ∃ p, (ensurePolicyCount st).policyCount = some p := by
    cases hvar : st.policyCount with
    | some p => exact ⟨p, by simp [ensurePolicyCount, hvar]⟩
    | none => exact ⟨st.derivedGauges.length, by simp [ensurePolicyCount, hvar]⟩
  obtain ⟨p, hv⟩ := hv
  have hok := hw.policyCount
  simp only [hv, DerivedVarOK] at hok
  obtain ⟨hp, hk, _⟩ := hok
  refine ⟨writeCallback p [s] f (ensurePolicyCount st), ?_, WF_writeCallback _ _ hw hp,
    Quiet.of_eq (ensurePolicyCount_logs st)⟩
  rw [AddPolicyCountCallback_ensure _ _ hnone]
  exact AddPolicyCountCallback_registered _ _ hv (by simp [hk])

theorem SetConfigInfo_WF {st : State} (lib : Collaborators) (now : Int) (s : String)
    (success : Bool) (checksum : String) (h : WF st) :
    ∃ st1, SetConfigInfo lib now s success checksum st = .returned st1 ∧ WF st1 ∧
      Quiet st st1 := by
  cases success with
  | false => exact ⟨_, rfl, WF_congr h rfl rfl rfl rfl rfl rfl, Quiet.of_eq rfl⟩
  | true =>
    cases ht : lib.tagValueOK s with
    | false =>
      refine ⟨_, SetConfigInfo_success_rejected lib now s checksum st ht,
        WF_congr h rfl rfl rfl rfl rfl rfl, ?_⟩
      refine ⟨["internal/metrics: failed to record config checksum timestamp",
        "internal/metrics: failed to record config reload"], by simp [logError], ?_⟩
      intro m hm
      simpa using hm
    | true =>
      exact ⟨_, SetConfigInfo_success_ok lib now s checksum st ht,
        WF_congr h rfl rfl rfl rfl rfl rfl, Quiet.of_eq rfl⟩

theorem RegisterInfoMetrics_WF {st : State} (lib : Collaborators) (h : WF st) :
    ∃ st1, RegisterInfoMetrics lib st = .returned st1 ∧ WF st1 ∧ Quiet st st1 := by
  refine ⟨_, rfl, ?_, ?_⟩
  · unfold AddProducer
    split
    · exact h
    · exact WF_congr h rfl rfl rfl rfl rfl rfl
  · unfold AddProducer
    split <;> exact Quiet.of_eq rfl

theorem Op.apply_WF {st : State} (lib : Collaborators) (op : Op) (h : WF st) :
    ∃ st1, op.apply lib st = .returned st1 ∧ WF st1 ∧ Quiet st st1 := by
  cases op with
  | setBuildInfo env s => exact SetBuildInfo_WF env s h
  | setConfigInfo now s success checksum => exact SetConfigInfo_WF lib now s success checksum h
  | registerInfoMetrics => exact RegisterInfoMetrics_WF lib h
  | setConfigChecksum s c => exact SetConfigChecksum_WF s c h
  | addPolicyCountCallback s f => exact AddPolicyCountCallback_WF s f h

theorem run_WF (lib : Collaborators) (ops : List Op) :
    ∀ st : State, WF st → ∃ st1, run lib ops st = .returned st1 ∧ WF st1 ∧ Quiet st st1 := by
  induction ops with
  | nil => exact fun st h => ⟨st, rfl, h, Quiet.of_eq rfl⟩
  | cons op rest ih =>
    intro st h
    obtain ⟨st1, h1, hw1, hq1⟩ := Op.apply_WF lib op h
    obtain ⟨st2, h2, hw2, hq2⟩ := ih st1 hw1
    exact ⟨st2, by simp only [run, h1, h2], hw2, hq1.append hq2⟩

/-! ## The lookup-error branch -/

/-- A failed lookup leaves the state as it was. -/
theorem GetEntry_error {st : State} {p : Nat} {vals : List String} {e : String}
    (h : (GetEntry p vals st).1 = .error e) : GetEntry p vals st = (.error e, st) := by
  by_cases hlen : vals.length = (st.gauge p).labelKeys.length
  · rw [GetEntry_ok hlen] at h
    exact Except.noConfusion h
  · unfold GetEntry at h ⊢
    simp only [ne_eq, hlen, not_false_eq_true, if_true, Except.error.injEq] at h ⊢
    rw [h]

/-- What `SetBuildInfo` does when the lookup fails. -/
theorem SetBuildInfo_lookup_error {st : State} {p : Nat} {e : String} (env : BuildEnv)
    (s : String) (hv : st.buildInfo = some p)
    (h : (GetEntry p (buildInfoLabels env s) st).1 = .error e) :
    SetBuildInfo env s st =
      .panicked (logError "internal/metrics: failed to add build info metric" st) := by
  have hge : GetEntry p [s, env.fullVersion, env.gitCommit, env.runtimeVersion] st =
      (.error e, st) := GetEntry_error h
  unfold SetBuildInfo
  simp only [hv, hge, EntrySet]

/-- What `SetConfigChecksum` does when the lookup fails. -/
theorem SetConfigChecksum_lookup_error {st : State} {p : Nat} {e : String} (s : String)
    (c : Int) (hv : st.configChecksum = some p) (h : (GetEntry p [s] st).1 = .error e) :
    SetConfigChecksum s c st =
      .panicked (logError "internal/metrics: failed to add config checksum metric" st) := by
  have hge : GetEntry p [s] st = (.error e, st) := GetEntry_error h
  unfold SetConfigChecksum
  simp only [hv, hge, EntrySet]

/-- In a well-formed state `SetBuildInfo` returns without logging. -/
theorem SetBuildInfo_silent {st : State} (env : BuildEnv) (s : String) (h : WF st) :
    ∃ st1, SetBuildInfo env s st = .returned st1 ∧ st1.logs = st.logs := by
  obtain ⟨p, hv, hp, hk, _, _⟩ := ensureBuildInfo_spec h.buildInfo
  have hnone : st.buildInfo = none →
      ∀ q, find "build_info" st.metricRegistry ≠ some (.derivedGauge q) := by
    intro hvar q
    have := h.buildInfo
    simp only [hvar, GaugeVarOK] at this
    simp [this]
  refine ⟨writeEntry p (buildInfoLabels env s) 1 (ensureBuildInfo st), ?_,
    ensureBuildInfo_logs st⟩
  rw [SetBuildInfo_ensure _ _ hnone]
  exact SetBuildInfo_registered _ _ hv hp (by simp [hk, buildInfoKeys])

/-- In a well-formed state `SetConfigChecksum` returns without logging. -/
theorem SetConfigChecksum_silent {st : State} (s : String) (c : Int) (h : WF st) :
    ∃ st1, SetConfigChecksum s c st = .returned st1 ∧ st1.logs = st.logs := by
  obtain ⟨p, hv, hp, hk, _, _⟩ := ensureConfigChecksum_spec h.configChecksum
  have hnone : st.configChecksum = none →
      ∀ q, find "config_checksum_int64" st.metricRegistry ≠ some (.derivedGauge q) := by
    intro hvar q
    have := h.configChecksum
    simp only [hvar, GaugeVarOK] at this
    simp [this]
  refine ⟨writeEntry p [s] c (ensureConfigChecksum st), ?_, ensureConfigChecksum_logs st⟩
  rw [SetConfigChecksum_ensure _ _ hnone]
  exact SetConfigChecksum_registered _ _ hv hp (by simp [hk])

theorem started_WF : WF started := by
  refine ⟨?_, ?_, ?_, ?_, ?_, ?_⟩ <;>
    simp [started, State.initial, GaugeVarOK, DerivedVarOK, find]

/-! ## The claims -/

/-- C1: from a state in which the checksum gauge is unregistered or was
registered by `SetConfigChecksum`, the call `SetConfigChecksum s c` returns and
the entry of the config-checksum gauge for label `s` then reads `c`; after any
sequence of such calls the entry for each label holds the checksum of the most
recent call made for that label, and a label no call was made for reads as
before. -/
theorem SetConfigChecksum_last_write_wins (lib : Collaborators) (st : State)
    (h : GaugeVarOK st st.configChecksum "config_checksum_int64" ["service"]) :
    (∀ (s : String) (c : Int), ∃ st1, SetConfigChecksum s c st = .returned st1 ∧
        gaugeEntry "config_checksum_int64" [s] st1 = some c) ∧
    (∀ calls : List (String × Int), ∃ st1,
        run lib (calls.map fun sc => Op.setConfigChecksum sc.1 sc.2) st = .returned st1 ∧
        ∀ s, gaugeEntry "config_checksum_int64" [s] st1 =
          match lastChecksum s calls with
          | some c => some c
          | none => gaugeEntry "config_checksum_int64" [s] st) := by
  refine ⟨?_, fun calls => checksum_calls lib calls st h⟩
  intro s c
  obtain ⟨st1, hret, _, hent⟩ := SetConfigChecksum_spec s c h
  exact ⟨st1, hret, by simp [gaugeEntry_eq_find, hent, find_upsert_self]⟩

/-- Witness for C1: in a fresh process `SetConfigChecksum "test_service" 42`
leaves 42 in the entry for "test_service". -/
theorem SetConfigChecksum_last_write_wins_witness :
    GaugeVarOK started started.configChecksum "config_checksum_int64" ["service"] ∧
      ∃ st1, SetConfigChecksum "test_service" 42 started = .returned st1 ∧
        gaugeEntry "config_checksum_int64" ["test_service"] st1 = some 42 :=
  ⟨started_checksum_unregistered,
    (SetConfigChecksum_last_write_wins opencensus started started_checksum_unregistered).1
      "test_service" 42⟩

/-- C2: in a well-formed state `AddPolicyCountCallback s f` returns, and an
export read of the registry then invokes `f` for label `s` and reports what
`f` returns as the only policy-count value for `s`; after a further
`AddPolicyCountCallback s f2`, every export read reports what `f2` returns for
`s`, the only callback invoked for label `s` is `f2`, and for every other
label the callbacks invoked are the ones registered before the two calls. -/
theorem AddPolicyCountCallback_replaces (st : State) (h : WF st) (s : String)
    (f f2 : Callback) :
    ∃ st1 st2,
      AddPolicyCountCallback s f st = .returned st1 ∧
      (∀ call : Callback → Int,
        ("policy_count_total", [s], f) ∈ (Read call st1).2 ∧
        ∀ v, ("policy_count_total", [s], v) ∈ (Read call st1).1 ↔ v = call f) ∧
      AddPolicyCountCallback s f2 st1 = .returned st2 ∧
      (∀ call : Callback → Int,
        (∀ v, ("policy_count_total", [s], v) ∈ (Read call st2).1 ↔ v = call f2) ∧
        (∀ g, ("policy_count_total", [s], g) ∈ (Read call st2).2 ↔ g = f2) ∧
        (∀ k g, k ≠ [s] →
          (("policy_count_total", k, g) ∈ (Read call st2).2 ↔
            (k, g) ∈ derivedEntries "policy_count_total" st))) := by
  obtain ⟨st1, hret1, hw1, hent1, hg1⟩ := AddPolicyCountCallback_spec s f h
  obtain ⟨st2, hret2, hw2, hent2, hg2⟩ := AddPolicyCountCallback_spec s f2 hw1
  have hn := h.policyCountLabels_nodup
  have hn1 := hw1.policyCountLabels_nodup
  refine ⟨st1, st2, hret1, ?_, hret2, ?_⟩
  · intro call
    constructor
    · rw [mem_Read_invoked call hw1.registryNames, hent1, mem_upsert hn]
      exact Or.inl ⟨rfl, rfl⟩
    · intro v
      rw [mem_Read_points call hw1.registryNames, hg1, hent1]
      constructor
      · rintro (hx | ⟨g, hm, hv⟩)
        · simp at hx
        · rw [mem_upsert hn] at hm
          rcases hm with ⟨_, hgf⟩ | ⟨hne, _⟩
          · rw [hv, hgf]
          · exact absurd rfl hne
      · intro hv
        exact Or.inr ⟨f, (mem_upsert hn _ _ _ _).mpr (Or.inl ⟨rfl, rfl⟩), hv⟩
  · intro call
    refine ⟨?_, ?_, ?_⟩
    · intro v
      rw [mem_Read_points call hw2.registryNames, hg2, hent2]
      constructor
      · rintro (hx | ⟨g, hm, hv⟩)
        · simp at hx
        · rw [mem_upsert hn1] at hm
          rcases hm with ⟨_, hgf⟩ | ⟨hne, _⟩
          · rw [hv, hgf]
          · exact absurd rfl hne
      · intro hv
        exact Or.inr ⟨f2, (mem_upsert hn1 _ _ _ _).mpr (Or.inl ⟨rfl, rfl⟩), hv⟩
    · intro g
      rw [mem_Read_invoked call hw2.registryNames, hent2, mem_upsert hn1]
      constructor
      · rintro (⟨_, hgf⟩ | ⟨hne, _⟩)
        · exact hgf
        · exact absurd rfl hne
      · intro hgf
        exact Or.inl ⟨rfl, hgf⟩
    · intro k g hk
      rw [mem_Read_invoked call hw2.registryNames, hent2, mem_upsert hn1, hent1,
        mem_upsert hn]
      constructor
      · rintro (⟨hk1, _⟩ | ⟨_, ⟨hk1, _⟩ | ⟨_, hm⟩⟩)
        · exact absurd hk1 hk
        · exact absurd hk1 hk
        · exact hm
      · intro hm
        exact Or.inr ⟨hk, Or.inr ⟨hk, hm⟩⟩

/-- Witness for C2: in a fresh process, after callback 1 and then callback 2
were registered for "test_service", a read whose callback 2 returns 42
reports 42 and invokes only callback 2 for that label. -/
theorem AddPolicyCountCallback_replaces_witness :
    WF started ∧
      ∃ st1 st2, AddPolicyCountCallback "test_service" 1 started = .returned st1 ∧
        AddPolicyCountCallback "test_service" 2 st1 = .returned st2 ∧
        (∀ v, ("policy_count_total", ["test_service"], v) ∈
            (Read (fun g => if g = 2 then 42 else 0) st2).1 ↔ v = 42) ∧
        (∀ g, ("policy_count_total", ["test_service"], g) ∈
            (Read (fun g => if g = 2 then 42 else 0) st2).2 ↔ g = 2) := by
  obtain ⟨st1, st2, h1, _, h2, h3⟩ :=
    AddPolicyCountCallback_replaces started started_WF "test_service" 1 2
  exact ⟨started_WF, st1, st2, h1, h2,
    (h3 (fun g => if g = 2 then 42 else 0)).1, (h3 (fun g => if g = 2 then 42 else 0)).2.1⟩

/-- C4, as amended: with both config views registered and a service `s` that
the tag library accepts as a tag value, `SetConfigInfo s true checksum`
returns, the "last reload success" row for service `s` reads 1, the "last
reload timestamp" row for service `s` reads the clock value taken during the
call, and nothing is logged. -/
theorem SetConfigInfo_success_records (lib : Collaborators) (now : Int) (s checksum : String)
    (st : State) (ht : Registered ConfigLastReloadView st)
    (hs : Registered ConfigLastReloadSuccessView st) (hok : lib.tagValueOK s = true) :
    ∃ st1, SetConfigInfo lib now s true checksum st = .returned st1 ∧
      viewRow ConfigLastReloadSuccessView.name (some s) st1 = some 1 ∧
      viewRow ConfigLastReloadView.name (some s) st1 = some now ∧
      st1.logs = st.logs := by
  obtain ⟨rt, hlt⟩ := ht.lookup
  obtain ⟨rs, hls⟩ := hs.lookup
  refine ⟨_, SetConfigInfo_success_ok lib now s checksum st hok, ?_, ?_, rfl⟩
  · simp only [viewRow, RetrieveData, lookupView_record, hls, Option.map_some']
    have h1 : ConfigLastReloadSuccessView.measure ≠ configLastReload := by decide
    have h2 : ConfigLastReloadSuccessView.measure = configLastReloadSuccess := rfl
    simp only [h1, h2, if_false, if_true]
    exact find_upsert_self _ _ _
  · simp only [viewRow, RetrieveData, lookupView_record, hlt, Option.map_some']
    have h1 : ConfigLastReloadView.measure = configLastReload := rfl
    have h2 : configLastReload ≠ configLastReloadSuccess := by decide
    simp only [h1, h2, if_false, if_true]
    exact find_upsert_self _ _ _

/-- Witness for C4: in a process with both views registered,
`SetConfigInfo "test_service" true "abcde"` at clock value 1600000000 leaves 1
and 1600000000 in the two rows for "test_service". -/
theorem SetConfigInfo_success_records_witness :
    Registered ConfigLastReloadView started ∧
    Registered ConfigLastReloadSuccessView started ∧
    opencensus.tagValueOK "test_service" = true ∧
    ∃ st1, SetConfigInfo opencensus 1600000000 "test_service" true "abcde" started =
        .returned st1 ∧
      viewRow ConfigLastReloadSuccessView.name (some "test_service") st1 = some 1 ∧
      viewRow ConfigLastReloadView.name (some "test_service") st1 = some 1600000000 ∧
      st1.logs = started.logs :=
  ⟨started_views.1, started_views.2, by decide,
    SetConfigInfo_success_records opencensus 1600000000 "test_service" "abcde" started
      started_views.1 started_views.2 (by decide)⟩

/-- Counterexample to C4 as stated: both views are registered, yet for the
service "café", which the tag library rejects as a tag value,
`SetConfigInfo "café" true "abcde"` records nothing: the views are as before,
neither series has a row for "café", and the two failures are logged. -/
theorem SetConfigInfo_success_rejected_tag :
    Registered ConfigLastReloadView started ∧
    Registered ConfigLastReloadSuccessView started ∧
    (SetConfigInfo opencensus 1600000000 "café" true "abcde" started).state.views =
      started.views ∧
    viewRow ConfigLastReloadSuccessView.name (some "café")
      (SetConfigInfo opencensus 1600000000 "café" true "abcde" started).state = none ∧
    viewRow ConfigLastReloadView.name (some "café")
      (SetConfigInfo opencensus 1600000000 "café" true "abcde" started).state = none ∧
    (SetConfigInfo opencensus 1600000000 "café" true "abcde" started).state.logs =
      ["internal/metrics: failed to record config checksum timestamp",
       "internal/metrics: failed to record config reload"] := by
  have hbad : opencensus.tagValueOK "café" = false := by decide
  rw [SetConfigInfo_success_rejected opencensus 1600000000 "café" "abcde" started hbad]
  exact ⟨started_views.1, started_views.2, rfl, by decide, by decide, rfl⟩

/-- C5: with both config views registered, `SetConfigInfo s false checksum`
returns after recording exactly one measurement, the value 0 of the "last
reload success" measure with no tag at all: the success row without a service
label reads 0, the rows of the "last reload timestamp" view are as before, and
so is the success row of every service label, that of `s` included. -/
theorem SetConfigInfo_failure_records (lib : Collaborators) (now : Int) (s checksum : String)
    (st : State) (ht : Registered ConfigLastReloadView st)
    (hs : Registered ConfigLastReloadSuccessView st) :
    ∃ st1, SetConfigInfo lib now s false checksum st = .returned st1 ∧
      st1 = { st with views := recordMeasurement [] configLastReloadSuccess 0 st.views } ∧
      viewRow ConfigLastReloadSuccessView.name none st1 = some 0 ∧
      RetrieveData ConfigLastReloadView.name st1 = RetrieveData ConfigLastReloadView.name st ∧
      (∀ t, viewRow ConfigLastReloadSuccessView.name (some t) st1 =
        viewRow ConfigLastReloadSuccessView.name (some t) st) ∧
      st1.logs = st.logs := by
  obtain ⟨rt, hlt⟩ := ht.lookup
  obtain ⟨rs, hls⟩ := hs.lookup
  have h1 : ConfigLastReloadView.measure ≠ configLastReloadSuccess := by decide
  have h2 : ConfigLastReloadSuccessView.measure = configLastReloadSuccess := rfl
  refine ⟨_, by simp [SetConfigInfo, Record], rfl, ?_, ?_, ?_, rfl⟩
  · simp only [viewRow, RetrieveData, lookupView_record, hls, Option.map_some', h2, if_true]
    exact find_upsert_self _ _ _
  · simp only [RetrieveData, lookupView_record, hlt, Option.map_some', h1, if_false]
  · intro t
    simp only [viewRow, RetrieveData, lookupView_record, hls, Option.map_some', h2, if_true]
    exact find_upsert_ne (by simp [ConfigLastReloadSuccessView, find]) _ _

/-- Witness for C5: in a process with both views registered,
`SetConfigInfo "test_service" false "abcde"` leaves 0 in the success row
without a service label. -/
theorem SetConfigInfo_failure_records_witness :
    Registered ConfigLastReloadView started ∧
    Registered ConfigLastReloadSuccessView started ∧
    ∃ st1, SetConfigInfo opencensus 1600000000 "test_service" false "abcde" started =
        .returned st1 ∧
      viewRow ConfigLastReloadSuccessView.name none st1 = some 0 ∧
      viewRow ConfigLastReloadSuccessView.name (some "test_service") st1 = none := by
  obtain ⟨st1, h1, _, h3, _, h5, _⟩ :=
    SetConfigInfo_failure_records opencensus 1600000000 "test_service" "abcde" started
      started_views.1 started_views.2
  exact ⟨started_views.1, started_views.2, st1, h1, h3, by rw [h5]; decide⟩

/-- C3: in a well-formed state `SetBuildInfo env s` returns and leaves the
build-info gauge with exactly one entry for the label tuple (s, version,
commit, runtime version), holding 1, and a second call with the same arguments
changes nothing; after any sequence of calls, with whatever tuples, the gauge
holds no label tuple twice, every tuple a call was made with has exactly one
entry, holding 1, and no tuple has an entry except those it had before and
those of the calls. -/
theorem SetBuildInfo_idempotent (lib : Collaborators) (st : State) (h : WF st) :
    (∀ (env : BuildEnv) (s : String), ∃ st1, SetBuildInfo env s st = .returned st1 ∧
        occurrences (buildInfoLabels env s) (gaugeLabels "build_info" st1) = 1 ∧
        gaugeEntry "build_info" (buildInfoLabels env s) st1 = some 1 ∧
        SetBuildInfo env s st1 = .returned st1) ∧
    (∀ calls : List (BuildEnv × String), ∃ st1,
        run lib (calls.map fun c => Op.setBuildInfo c.1 c.2) st = .returned st1 ∧
        (gaugeLabels "build_info" st1).Nodup ∧
        (∀ c ∈ calls,
          occurrences (buildInfoLabels c.1 c.2) (gaugeLabels "build_info" st1) = 1 ∧
          gaugeEntry "build_info" (buildInfoLabels c.1 c.2) st1 = some 1) ∧
        (∀ k, k ∈ gaugeLabels "build_info" st1 ↔
          k ∈ gaugeLabels "build_info" st ∨
            k ∈ calls.map (fun c => buildInfoLabels c.1 c.2))) := by
  have hn := h.buildInfoLabels_nodup
  constructor
  · intro env s
    obtain ⟨st1, hret, hok, hent⟩ := SetBuildInfo_spec env s h.buildInfo
    have hfind : find (buildInfoLabels env s) (gaugeEntries "build_info" st1) = some 1 := by
      rw [hent]
      exact find_upsert_self _ _ _
    have hn1 : (gaugeLabels "build_info" st1).Nodup := by
      unfold gaugeLabels
      rw [hent]
      exact nodup_keys_upsert _ _ hn
    have hmem : buildInfoLabels env s ∈ gaugeLabels "build_info" st1 := by
      by_contra hc
      rw [gaugeLabels, ← find_eq_none_iff, hfind] at hc
      exact Option.noConfusion hc
    exact ⟨st1, hret, occurrences_eq_one hn1 hmem,
      by rw [gaugeEntry_eq_find, hfind], SetBuildInfo_again env s hok hfind⟩
  · intro calls
    obtain ⟨st1, hrun, hn1, hall⟩ := buildInfo_calls lib calls st h.buildInfo hn
    have hmem : ∀ k, k ∈ gaugeLabels "build_info" st1 ↔
        k ∈ gaugeLabels "build_info" st ∨
          k ∈ calls.map (fun c => buildInfoLabels c.1 c.2) := by
      intro k
      have h1 := find_eq_none_iff k (gaugeEntries "build_info" st1)
      have h2 := find_eq_none_iff k (gaugeEntries "build_info" st)
      rw [hall k] at h1
      by_cases hk : k ∈ calls.map (fun c => buildInfoLabels c.1 c.2)
      · rw [if_pos hk] at h1
        simp only [gaugeLabels]
        constructor
        · intro _
          exact Or.inr hk
        · intro _
          by_contra hc
          exact Option.noConfusion (h1.mpr hc)
      · rw [if_neg hk] at h1
        simp only [gaugeLabels]
        constructor
        · intro hin
          left
          by_contra hc
          exact (h1.mp (h2.mpr hc)) hin
        · rintro (hin | hin)
          · by_contra hc
            exact (h2.mp (h1.mpr hc)) hin
          · exact absurd hin hk
    refine ⟨st1, hrun, hn1, ?_, hmem⟩
    intro c hc
    have hcm : buildInfoLabels c.1 c.2 ∈ calls.map (fun c => buildInfoLabels c.1 c.2) :=
      List.mem_map_of_mem _ hc
    refine ⟨occurrences_eq_one hn1 ((hmem _).mpr (Or.inr hcm)), ?_⟩
    rw [gaugeEntry_eq_find, hall, if_pos hcm]

/-- Witness for C3: in a fresh process two calls of `SetBuildInfo` for
"test_service" leave one entry for its label tuple, holding 1. -/
theorem SetBuildInfo_idempotent_witness :
    WF started ∧
      ∃ st1, run opencensus
          ([(⟨"v0.0.1", "deadbeef", "go1.14"⟩, "test_service"),
            (⟨"v0.0.1", "deadbeef", "go1.14"⟩, "test_service")].map
              fun c => Op.setBuildInfo c.1 c.2) started = .returned st1 ∧
        occurrences (buildInfoLabels ⟨"v0.0.1", "deadbeef", "go1.14"⟩ "test_service")
          (gaugeLabels "build_info" st1) = 1 ∧
        gaugeEntry "build_info"
          (buildInfoLabels ⟨"v0.0.1", "deadbeef", "go1.14"⟩ "test_service") st1 = some 1 := by
  obtain ⟨st1, hrun, _, hall, _⟩ :=
    (SetBuildInfo_idempotent opencensus started started_WF).2
      [(⟨"v0.0.1", "deadbeef", "go1.14"⟩, "test_service"),
        (⟨"v0.0.1", "deadbeef", "go1.14"⟩, "test_service")]
  exact ⟨started_WF, st1, hrun, hall _ (List.mem_cons_self _ _)⟩

/-- C6: when the registry refuses to create the gauge, each of `SetBuildInfo`,
`SetConfigChecksum` and `AddPolicyCountCallback` returns to its caller in a
state that differs from the one before only by the logged message and the
record of the refused add-gauge call: the gauge objects, the registry and the
three gauge variables are unchanged, the variable of the gauge is still nil. -/
theorem registration_failure_returns (st : State) (env : BuildEnv) (s : String) (c : Int)
    (f : Callback) :
    (st.buildInfo = none →
      (∃ e, (AddInt64Gauge "build_info" buildInfoKeys st).1 = .error e) →
      SetBuildInfo env s st =
        .returned
          { st with
            logs := st.logs ++ ["internal/metrics: failed to register build info metric"]
            addGaugeCalls := st.addGaugeCalls ++ [("build_info", false)] }) ∧
    (st.configChecksum = none →
      (∃ e, (AddInt64Gauge "config_checksum_int64" ["service"] st).1 = .error e) →
      SetConfigChecksum s c st =
        .returned
          { st with
            logs := st.logs ++ ["internal/metrics: failed to register config checksum metric"]
            addGaugeCalls := st.addGaugeCalls ++ [("config_checksum_int64", false)] }) ∧
    (st.policyCount = none →
      (∃ e, (AddInt64DerivedGauge "policy_count_total" ["service"] st).1 = .error e) →
      AddPolicyCountCallback s f st =
        .returned
          { st with
            logs := st.logs ++ ["internal/metrics: failed to register policy count metric"]
            addGaugeCalls := st.addGaugeCalls ++ [("policy_count_total", false)] }) := by
  refine ⟨?_, ?_, ?_⟩
  · rintro hvar ⟨e, he⟩
    unfold SetBuildInfo
    unfold AddInt64Gauge at he ⊢
    simp only [hvar]
    split at he
    · rename_i q hq
      simp [hq, logError]
    · simp at he
  · rintro hvar ⟨e, he⟩
    unfold SetConfigChecksum
    unfold AddInt64Gauge at he ⊢
    simp only [hvar]
    split at he
    · rename_i q hq
      simp [hq, logError]
    · simp at he
  · rintro hvar ⟨e, he⟩
    unfold AddPolicyCountCallback
    unfold AddInt64DerivedGauge at he ⊢
    simp only [hvar]
    split at he
    · rename_i q hq
      simp [hq, logError]
    · simp at he

/-- Witness for C6: in a state whose registry holds the three names with the
other kind of metric, the three setters return having only logged. -/
theorem registration_failure_returns_witness :
    (clashing.buildInfo = none ∧
      (∃ e, (AddInt64Gauge "build_info" buildInfoKeys clashing).1 = .error e) ∧
      (SetBuildInfo ⟨"v0.0.1", "deadbeef", "go1.14"⟩ "test_service" clashing).state.gauges =
        clashing.gauges) ∧
    (clashing.configChecksum = none ∧
      (∃ e, (AddInt64Gauge "config_checksum_int64" ["service"] clashing).1 = .error e) ∧
      (SetConfigChecksum "test_service" 42 clashing).state.configChecksum = none) ∧
    (clashing.policyCount = none ∧
      (∃ e, (AddInt64DerivedGauge "policy_count_total" ["service"] clashing).1 = .error e) ∧
      (AddPolicyCountCallback "test_service" 1 clashing).state.derivedGauges =
        clashing.derivedGauges) := by
  have h := registration_failure_returns clashing ⟨"v0.0.1", "deadbeef", "go1.14"⟩
    "test_service" 42 1
  have e1 : ∃ e, (AddInt64Gauge "build_info" buildInfoKeys clashing).1 = .error e :=
    ⟨_, rfl⟩
  have e2 : ∃ e, (AddInt64Gauge "config_checksum_int64" ["service"] clashing).1 = .error e :=
    ⟨_, rfl⟩
  have e3 : ∃ e,
      (AddInt64DerivedGauge "policy_count_total" ["service"] clashing).1 = .error e :=
    ⟨_, rfl⟩
  refine ⟨⟨rfl, e1, ?_⟩, ⟨rfl, e2, ?_⟩, ⟨rfl, e3, ?_⟩⟩
  · rw [h.1 rfl e1]
    rfl
  · rw [h.2.1 rfl e2]
    rfl
  · rw [h.2.2 rfl e3]
    rfl

/-- C7, as amended: whenever `GetEntry` returns an error inside `SetBuildInfo`
or `SetConfigChecksum`, the error is logged and the state the call leaves
behind is the prior one with that message added, so the gauge objects, their
entries, the registry and the gauge variables are unchanged (whether the call
returns is not stated); in a well-formed state, which is every state the
package reaches through its own operations, the lookup returns no error and
both calls return normally without logging. -/
theorem lookup_failure_logged (st : State) (env : BuildEnv) (s : String) (c : Int) :
    (∀ p e, st.buildInfo = some p →
      (GetEntry p (buildInfoLabels env s) st).1 = .error e →
      (SetBuildInfo env s st).state =
        logError "internal/metrics: failed to add build info metric" st) ∧
    (∀ p e, st.configChecksum = some p → (GetEntry p [s] st).1 = .error e →
      (SetConfigChecksum s c st).state =
        logError "internal/metrics: failed to add config checksum metric" st) ∧
    (WF st →
      (∀ p, st.buildInfo = some p →
        (GetEntry p (buildInfoLabels env s) st).1 = .ok (p, buildInfoLabels env s)) ∧
      (∀ p, st.configChecksum = some p → (GetEntry p [s] st).1 = .ok (p, [s])) ∧
      (∃ st1, SetBuildInfo env s st = .returned st1 ∧ st1.logs = st.logs) ∧
      (∃ st1, SetConfigChecksum s c st = .returned st1 ∧ st1.logs = st.logs)) := by
  refine ⟨?_, ?_, ?_⟩
  · intro p e hv he
    rw [SetBuildInfo_lookup_error env s hv he]
    rfl
  · intro p e hv he
    rw [SetConfigChecksum_lookup_error s c hv he]
    rfl
  · intro h
    refine ⟨?_, ?_, SetBuildInfo_silent env s h, SetConfigChecksum_silent s c h⟩
    · intro p hv
      have hok := h.buildInfo
      simp only [hv, GaugeVarOK] at hok
      exact GetEntry_ok (by simp [hok.2.1, buildInfoLabels, buildInfoKeys])
    · intro p hv
      have hok := h.configChecksum
      simp only [hv, GaugeVarOK] at hok
      exact GetEntry_ok (by simp [hok.2.1])

/-- Witness for C7: in the state `swapped` both lookups fail and each call
leaves the state with only the message added; in a fresh process both calls
return without logging. -/
theorem lookup_failure_logged_witness :
    (swapped.buildInfo = some 0 ∧
      (GetEntry 0 (buildInfoLabels ⟨"v0.0.1", "deadbeef", "go1.14"⟩ "test_service")
        swapped).1 = .error "label keys and values do not match" ∧
      (SetBuildInfo ⟨"v0.0.1", "deadbeef", "go1.14"⟩ "test_service" swapped).state =
        logError "internal/metrics: failed to add build info metric" swapped) ∧
    (swapped.configChecksum = some 1 ∧
      (GetEntry 1 ["test_service"] swapped).1 =
        .error "label keys and values do not match" ∧
      (SetConfigChecksum "test_service" 42 swapped).state =
        logError "internal/metrics: failed to add config checksum metric" swapped) ∧
    (WF started ∧
      (∃ st1, SetBuildInfo ⟨"v0.0.1", "deadbeef", "go1.14"⟩ "test_service" started =
        .returned st1 ∧ st1.logs = started.logs) ∧
      (∃ st1, SetConfigChecksum "test_service" 42 started = .returned st1 ∧
        st1.logs = started.logs)) :=
  ⟨⟨rfl, rfl,
      (lookup_failure_logged swapped ⟨"v0.0.1", "deadbeef", "go1.14"⟩ "test_service" 42).1
        0 _ rfl rfl⟩,
    ⟨rfl, rfl,
      (lookup_failure_logged swapped ⟨"v0.0.1", "deadbeef", "go1.14"⟩ "test_service" 42).2.1
        1 _ rfl rfl⟩,
    ⟨started_WF,
      ((lookup_failure_logged started ⟨"v0.0.1", "deadbeef", "go1.14"⟩ "test_service"
        42).2.2 started_WF).2.2.1,
      ((lookup_failure_logged started ⟨"v0.0.1", "deadbeef", "go1.14"⟩ "test_service"
        42).2.2 started_WF).2.2.2⟩⟩

/-- Counterexample to C7 as stated: in the state `swapped` the lookup inside
`SetBuildInfo` and inside `SetConfigChecksum` returns an error, and the call
is not abandoned after logging: it goes on to `Set` on the nil entry and does
not return normally. -/
theorem lookup_failure_not_abandoned :
    (GetEntry 0 (buildInfoLabels ⟨"v0.0.1", "deadbeef", "go1.14"⟩ "test_service")
      swapped).1 = .error "label keys and values do not match" ∧
    SetBuildInfo ⟨"v0.0.1", "deadbeef", "go1.14"⟩ "test_service" swapped =
      .panicked (logError "internal/metrics: failed to add build info metric" swapped) ∧
    (GetEntry 1 ["test_service"] swapped).1 = .error "label keys and values do not match" ∧
    SetConfigChecksum "test_service" 42 swapped =
      .panicked (logError "internal/metrics: failed to add config checksum metric" swapped) := by
  exact ⟨rfl, by decide, rfl, by decide⟩

/-- C8: whatever the global producer list holds, deleting the info-metrics
registry from it and then calling `RegisterInfoMetrics` returns with the
registry exactly once in the list, every other producer as before and in the
same order, so that the list has one element more than there are other
producers. -/
theorem RegisterInfoMetrics_after_delete (lib : Collaborators) (st : State) :
    ∃ st1, RegisterInfoMetrics lib (DeleteProducer st.registryId st) = .returned st1 ∧
      occurrences st.registryId st1.producers = 1 ∧
      st1.producers.filter (fun q => q ≠ st.registryId) =
        st.producers.filter (fun q => q ≠ st.registryId) ∧
      st1.producers.length = (st.producers.filter (fun q => q ≠ st.registryId)).length + 1 := by
  have hnot : st.registryId ∉ st.producers.filter (fun q => q ≠ st.registryId) := by
    simp
  have hst : RegisterInfoMetrics lib (DeleteProducer st.registryId st) =
      .returned
        { st with
          producers := st.producers.filter (fun q => q ≠ st.registryId) ++ [st.registryId] } := by
    simp only [RegisterInfoMetrics, AddProducer, DeleteProducer, hnot, decide_False,
      Bool.and_false, Bool.false_eq_true, if_false]
  refine ⟨_, hst, ?_, ?_, ?_⟩
  · simp [occurrences, List.filter_append, List.filter_filter]
  · simp [List.filter_append, List.filter_filter]
  · simp

/-- C9: over any sequence of calls of the package's operations, from any
state, the add-gauge calls made on the registry are appended to the record,
and for each of the three gauges: a variable that is set keeps the same
pointer to the end (it is never reset to nil nor replaced), no add-gauge call
at all is made for a gauge whose variable is set, at most one add-gauge call
for the gauge succeeds, and after a successful one the variable is set; so
when every registration made in the sequence succeeds, add-gauge was invoked
at most once for each gauge. -/
theorem gauges_registered_once (lib : Collaborators) (st : State) (ops : List Op) :
    ∃ new, (run lib ops st).state.addGaugeCalls = st.addGaugeCalls ++ new ∧
      Once "build_info" st.buildInfo (run lib ops st).state.buildInfo new ∧
      Once "config_checksum_int64" st.configChecksum
        (run lib ops st).state.configChecksum new ∧
      Once "policy_count_total" st.policyCount (run lib ops st).state.policyCount new ∧
      ((∀ c ∈ new, c.2 = true) →
        (callsFor "build_info" new).length ≤ 1 ∧
        (callsFor "config_checksum_int64" new).length ≤ 1 ∧
        (callsFor "policy_count_total" new).length ≤ 1) := by
  have hsteps : ∀ st : State, Steps st (run lib ops st).state := by
    induction ops with
    | nil => exact fun st => Steps_refl st
    | cons op rest ih =>
      intro st
      have h1 := Op.apply_steps lib op st
      simp only [run]
      cases ho : op.apply lib st with
      | returned st1 =>
        rw [ho] at h1
        exact Steps_trans h1 (ih st1)
      | panicked st1 =>
        rw [ho] at h1
        exact h1
  obtain ⟨new, hnew, hb, hc, hp⟩ := hsteps st
  refine ⟨new, hnew, hb, hc, hp, fun hall => ⟨?_, ?_, ?_⟩⟩
  · rw [callsFor_length hall]
    exact hb.atMostOnce
  · rw [callsFor_length hall]
    exact hc.atMostOnce
  · rw [callsFor_length hall]
    exact hp.atMostOnce

/-- C10: in every state the package reaches from a well-formed one by any
sequence of its operations (the run returns, it never panics), the gauge
behind `buildInfo` has the four label keys it was registered with and the one
behind `configChecksum` has one, so that for every service the lookup made by
`SetBuildInfo` and by `SetConfigChecksum` succeeds with a non-nil entry, and
both setters return; the messages of the lookup-error branches are never
logged along the way. -/
theorem entry_lookup_never_fails (lib : Collaborators) (st : State) (h : WF st)
    (ops : List Op) :
    ∃ st1, run lib ops st = .returned st1 ∧
      (∀ p, st1.buildInfo = some p → (st1.gauge p).labelKeys = buildInfoKeys ∧
        ∀ env s, (buildInfoLabels env s).length = (st1.gauge p).labelKeys.length ∧
          (GetEntry p (buildInfoLabels env s) st1).1 = .ok (p, buildInfoLabels env s)) ∧
      (∀ p, st1.configChecksum = some p → (st1.gauge p).labelKeys = ["service"] ∧
        ∀ s, [s].length = (st1.gauge p).labelKeys.length ∧
          (GetEntry p [s] st1).1 = .ok (p, [s])) ∧
      (∀ env s, ∃ st2, SetBuildInfo env s st1 = .returned st2) ∧
      (∀ s c, ∃ st2, SetConfigChecksum s c st1 = .returned st2) ∧
      (∃ extra, st1.logs = st.logs ++ extra ∧
        "internal/metrics: failed to add build info metric" ∉ extra ∧
        "internal/metrics: failed to add config checksum metric" ∉ extra) := by
  obtain ⟨st1, hrun, hw, extra, hlogs, hextra⟩ := run_WF lib ops st h
  refine ⟨st1, hrun, ?_, ?_, ?_, ?_, extra, hlogs, ?_, ?_⟩
  · intro p hv
    have hok := hw.buildInfo
    simp only [hv, GaugeVarOK] at hok
    refine ⟨hok.2.1, fun env s => ?_⟩
    have hlen : (buildInfoLabels env s).length = (st1.gauge p).labelKeys.length := by
      simp [hok.2.1, buildInfoLabels, buildInfoKeys]
    exact ⟨hlen, GetEntry_ok hlen⟩
  · intro p hv
    have hok := hw.configChecksum
    simp only [hv, GaugeVarOK] at hok
    refine ⟨hok.2.1, fun s => ?_⟩
    have hlen : [s].length = (st1.gauge p).labelKeys.length := by simp [hok.2.1]
    exact ⟨hlen, GetEntry_ok hlen⟩
  · intro env s
    obtain ⟨st2, h2, _⟩ := SetBuildInfo_WF env s hw
    exact ⟨st2, h2⟩
  · intro s c
    obtain ⟨st2, h2, _⟩ := SetConfigChecksum_WF s c hw
    exact ⟨st2, h2⟩
  · intro hm
    rcases hextra _ hm with hh | hh <;> exact absurd hh (by decide)
  · intro hm
    rcases hextra _ hm with hh | hh <;> exact absurd hh (by decide)

/-- Witness for C10: from a fresh process, after `SetBuildInfo` and
`SetConfigChecksum` for "test_service", both setters return again. -/
theorem entry_lookup_never_fails_witness :
    WF started ∧
      ∃ st1, run opencensus
          [.setBuildInfo ⟨"v0.0.1", "deadbeef", "go1.14"⟩ "test_service",
            .setConfigChecksum "test_service" 42] started = .returned st1 ∧
        (∃ st2, SetBuildInfo ⟨"v0.0.1", "deadbeef", "go1.14"⟩ "test_service" st1 =
          .returned st2) ∧
        (∃ st2, SetConfigChecksum "test_service" 43 st1 = .returned st2) := by
  obtain ⟨st1, hrun, _, _, hb, hc, _⟩ :=
    entry_lookup_never_fails opencensus started started_WF
      [.setBuildInfo ⟨"v0.0.1", "deadbeef", "go1.14"⟩ "test_service",
        .setConfigChecksum "test_service" 42]
  exact ⟨started_WF, st1, hrun, hb _ _, hc _ _⟩

end Metrics
